import Mathlib

/-!
Verification development for the fustgo ETL engine.

Each definition below is a shallow embedding of a function or data type of
the Go source; the doc comment of every definition names the source file and
symbol it embeds.  Machine integers are modelled by `Int`/`Nat` (none of the
embedded code paths can overflow a 64-bit counter on the inputs considered),
Go `float64` arithmetic is modelled by exact rational arithmetic on `ℚ`,
`time.Time` by a `Nat` tick, and fallible Go functions by `Except`/`Option`.
-/

namespace Fustgo

/- ======================================================================
   Task queue (src/internal/queue/memory.go)
   ====================================================================== -/

/-- A task held by the in-memory queue (src/internal/queue/memory.go, `Task`).
`createdAt`, `data`, `retries` and `maxRetries` are carried by the Go struct
but never read by the queue logic; the opaque payload is omitted. -/
structure QTask where
  id : String
  jobId : String
  priority : Int
  createdAt : Nat
  retries : Int
  maxRetries : Int
  deriving Repr, DecidableEq

/-- The insertion walk of `MemoryQueue.Enqueue` (src/internal/queue/memory.go
lines 88-101): scan from the front of the list and insert the new element
before the first element whose priority is strictly lower than the new one;
if no such element exists, push to the back.  The priority of an element is
read through `pri` so that the same walk can be stated both for raw tasks
and for tasks tagged with their enqueue sequence number. -/
def insertByPriority {α : Type} (pri : α → Int) (t : α) : List α → List α
  | [] => [t]
  | s :: rest =>
      if pri t > pri s then t :: s :: rest
      else s :: insertByPriority pri t rest

/-- Errors surfaced by the memory queue (the `fmt.Errorf` sites in
src/internal/queue/memory.go). -/
inductive QueueError
  | queueClosed
  | queueFull
  | queueEmpty
  | taskNotFound
  deriving Repr, DecidableEq

/-- State of a `MemoryQueue` (src/internal/queue/memory.go): the ordered task
list, the capacity bound, the closed flag, and the enqueue/dequeue counters. -/
structure MemoryQueue where
  tasks : List QTask
  maxSize : Nat
  closed : Bool
  enqueued : Int
  dequeued : Int
  deriving Repr, DecidableEq

/-- `MemoryQueue.Enqueue` (src/internal/queue/memory.go lines 76-108): fail
when closed, fail when the queue already holds `maxSize` tasks, otherwise
insert by priority and bump the enqueue counter. -/
def MemoryQueue.enqueue (q : MemoryQueue) (t : QTask) : Except QueueError MemoryQueue :=
  if q.closed then .error .queueClosed
  else if q.tasks.length ≥ q.maxSize then .error .queueFull
  else .ok { q with
    tasks := insertByPriority (fun s => s.priority) t q.tasks,
    enqueued := q.enqueued + 1 }

/-- Result of one non-blocking attempt of the `Dequeue` loop body. -/
inductive DequeueResult
  | got (t : QTask) (q : MemoryQueue)
  | errClosed
  | wouldBlock
  deriving Repr, DecidableEq

/-- One pass of the `MemoryQueue.Dequeue` loop (src/internal/queue/memory.go
lines 111-144), after the context check: fail when closed; when a task is
present remove and return the front of the list and bump the dequeue counter;
otherwise the goroutine waits on the condition variable (`wouldBlock`). -/
def MemoryQueue.dequeue (q : MemoryQueue) : DequeueResult :=
  if q.closed then .errClosed
  else
    match q.tasks with
    | [] => .wouldBlock
    | t :: rest => .got t { q with tasks := rest, dequeued := q.dequeued + 1 }

/-- A task tagged with its enqueue sequence number (the position of its
enqueue call in the overall enqueue order); the tag stands for the identity
of the Go `*Task` pointer. -/
abbrev TaggedTask := Nat × QTask

/-- Strict "is dequeued earlier" order on tagged tasks: strictly higher
priority, or equal priority and earlier enqueue (FIFO within a priority). -/
def taggedBefore (a b : TaggedTask) : Prop :=
  a.2.priority > b.2.priority ∨ (a.2.priority = b.2.priority ∧ a.1 < b.1)

instance (a b : TaggedTask) : Decidable (taggedBefore a b) := by
  unfold taggedBefore; infer_instance

/-- The queue contents after enqueueing the tasks of `ts` in order into an
initially empty queue, with each task tagged by its enqueue sequence number
(the closed/full guards pass throughout on an open, large enough queue). -/
def runEnqueues (ts : List QTask) : List TaggedTask :=
  ts.enum.foldl (fun q e => insertByPriority (fun s => s.2.priority) e q) []

lemma taggedBefore_asymm {a b : TaggedTask} (h1 : taggedBefore a b) (h2 : taggedBefore b a) :
    False := by
  rcases h1 with h1 | ⟨h1e, h1s⟩ <;> rcases h2 with h2 | ⟨h2e, h2s⟩ <;> omega

lemma insertByPriority_tagged (e : TaggedTask) (l : List TaggedTask)
    (hp : l.Pairwise taggedBefore) (hn : ∀ x ∈ l, x.1 < e.1) :
    (insertByPriority (fun s => s.2.priority) e l).Pairwise taggedBefore ∧
    (insertByPriority (fun s => s.2.priority) e l).Perm (e :: l) := by
  induction l with
  | nil => simp [insertByPriority]
  | cons s rest ih =>
    rw [insertByPriority]
    rcases List.pairwise_cons.mp hp with ⟨hs, hrest⟩
    by_cases hgt : e.2.priority > s.2.priority
    · simp only [hgt, if_pos]
      refine ⟨List.pairwise_cons.mpr ⟨?_, hp⟩, List.Perm.refl _⟩
      intro x hx
      rcases List.mem_cons.mp hx with hx1 | hx1
      · subst hx1; exact Or.inl hgt
      · have := hs x hx1
        left
        rcases this with h | ⟨h, _⟩ <;> omega
    · simp only [hgt, if_neg, not_false_eq_true]
      have ihm : ∀ x ∈ rest, x.1 < e.1 := fun x hx => hn x (List.mem_cons_of_mem _ hx)
      obtain ⟨ihp, ihperm⟩ := ih hrest ihm
      constructor
      · refine List.pairwise_cons.mpr ⟨?_, ihp⟩
        intro x hx
        have hx' : x ∈ e :: rest := ihperm.mem_iff.mp hx
        rcases List.mem_cons.mp hx' with hx1 | hx1
        · rw [hx1]
          by_cases hq : s.2.priority > e.2.priority
          · exact Or.inl hq
          · right
            refine ⟨by omega, ?_⟩
            exact hn s (List.mem_cons_self _ _)
        · exact hs x hx1
      · exact (ihperm.cons s).trans (List.Perm.swap e s rest)

/-- Folding the tagged enqueues over a well-formed queue preserves the strict
dequeue order and accumulates a permutation of the tagged tasks. -/
lemma foldl_insert_inv (es : List TaggedTask) : ∀ (l : List TaggedTask),
    l.Pairwise taggedBefore → (∀ x ∈ l, ∀ e ∈ es, x.1 < e.1) →
    es.Pairwise (fun a b => a.1 < b.1) →
    (es.foldl (fun q e => insertByPriority (fun s => s.2.priority) e q) l).Pairwise taggedBefore ∧
    (es.foldl (fun q e => insertByPriority (fun s => s.2.priority) e q) l).Perm (l ++ es) := by
  induction es with
  | nil => intro l hp _ _; simpa using hp
  | cons e rest ih =>
    intro l hp hn hseq
    simp only [List.foldl_cons]
    have hne : ∀ x ∈ l, x.1 < e.1 := fun x hx => hn x hx e (List.mem_cons_self _ _)
    obtain ⟨hp1, hperm1⟩ := insertByPriority_tagged e l hp hne
    rcases List.pairwise_cons.mp hseq with ⟨hefirst, hrestseq⟩
    have hn1 : ∀ x ∈ insertByPriority (fun s => s.2.priority) e l, ∀ f ∈ rest, x.1 < f.1 := by
      intro x hx f hf
      have hx' : x ∈ e :: l := hperm1.mem_iff.mp hx
      rcases List.mem_cons.mp hx' with hx1 | hx1
      · subst hx1; exact hefirst f hf
      · exact hn x hx1 f (List.mem_cons_of_mem _ hf)
    obtain ⟨hp2, hperm2⟩ := ih _ hp1 hn1 hrestseq
    refine ⟨hp2, ?_⟩
    exact hperm2.trans ((hperm1.append_right rest).trans List.perm_middle.symm)

lemma enum_seq_pairwise (ts : List QTask) : ts.enum.Pairwise (fun a b => a.1 < b.1) := by
  have h : (ts.enum.map Prod.fst).Pairwise (fun a b : Nat => a < b) := by
    rw [List.enum_map_fst]
    exact List.pairwise_lt_range _
  exact List.pairwise_map.mp h

lemma runEnqueues_pairwise (ts : List QTask) :
    (runEnqueues ts).Pairwise taggedBefore ∧ (runEnqueues ts).Perm ts.enum := by
  have h := foldl_insert_inv ts.enum [] (by simp) (by simp) (enum_seq_pairwise ts)
  simpa [runEnqueues] using h

lemma pairwise_indexOf_lt {α : Type} [BEq α] [LawfulBEq α] {R : α → α → Prop} {l : List α}
    {a b : α} (hp : l.Pairwise R) (ha : a ∈ l) (hb : b ∈ l) (hR : R a b)
    (hasym : ¬ R b a) (hne : a ≠ b) :
    l.indexOf a < l.indexOf b := by
  induction l with
  | nil => simp at hb
  | cons c rest ih =>
    rcases List.pairwise_cons.mp hp with ⟨hc, hrest⟩
    by_cases hca : c = a
    · subst hca
      have hbrest : b ∈ rest := by
        rcases List.mem_cons.mp hb with h | h
        · exact absurd h.symm hne
        · exact h
      simp only [List.indexOf_cons]
      have hcc : (c == c) = true := by simp
      have hbc : (c == b) = false := by
        simp only [beq_eq_false_iff_ne]
        exact fun h => hne h
      simp [hcc, hbc]
    · by_cases hcb : c = b
      · subst hcb
        exfalso
        have hal : a ∈ rest := by
          rcases List.mem_cons.mp ha with h | h
          · exact absurd h.symm hca
          · exact h
        exact hasym (hc a hal)
      · have harest : a ∈ rest := by
          rcases List.mem_cons.mp ha with h | h
          · exact absurd h.symm hca
          · exact h
        have hbrest : b ∈ rest := by
          rcases List.mem_cons.mp hb with h | h
          · exact absurd h.symm hcb
          · exact h
        have hrec := ih hrest harest hbrest
        simp only [List.indexOf_cons]
        have h1 : (c == a) = false := by simp only [beq_eq_false_iff_ne]; exact hca
        have h2 : (c == b) = false := by simp only [beq_eq_false_iff_ne]; exact hcb
        simp [h1, h2]
        omega

/-- Tasks of the spec's scenario E (priorities 1, 10, 5 enqueued in that
order). -/
def demoTaskLow : QTask := ⟨"low", "job-1", 1, 0, 0, 3⟩

def demoTaskHigh : QTask := ⟨"high", "job-1", 10, 0, 0, 3⟩

def demoTaskMedium : QTask := ⟨"medium", "job-1", 5, 0, 0, 3⟩

def demoTasks : List QTask := [demoTaskLow, demoTaskHigh, demoTaskMedium]

/-- C4: for every sequence of enqueues into the memory task queue the queue
stays sorted by priority descending with FIFO order among equal priorities
(every pair of stored tasks is ordered by `taggedBefore`, and the store is a
permutation of the enqueued tasks), any earlier-enqueued task whose priority
is at least that of a later-enqueued task ends up closer to the head (hence
is dequeued first), `Dequeue` removes and returns the head of an open
non-empty queue, and enqueuing priorities 1, 10, 5 yields dequeue order
10, 5, 1. -/
theorem memoryQueue_priority_order :
    (∀ ts : List QTask,
       (runEnqueues ts).Pairwise taggedBefore ∧ (runEnqueues ts).Perm ts.enum) ∧
    (∀ (ts : List QTask) (i j : Nat) (hi : i < ts.length) (hj : j < ts.length),
       i < j → (ts.get ⟨i, hi⟩).priority ≥ (ts.get ⟨j, hj⟩).priority →
       (runEnqueues ts).indexOf (i, ts.get ⟨i, hi⟩) <
         (runEnqueues ts).indexOf (j, ts.get ⟨j, hj⟩)) ∧
    (∀ (q : MemoryQueue) (t : QTask) (rest : List QTask),
       q.closed = false → q.tasks = t :: rest →
       q.dequeue = .got t { q with tasks := rest, dequeued := q.dequeued + 1 }) ∧
    (runEnqueues demoTasks).map (fun e => e.2.priority) = [10, 5, 1] := by
  refine ⟨fun ts => runEnqueues_pairwise ts, ?_, ?_, by decide⟩
  · intro ts i j hi hj hij hpri
    obtain ⟨hp, hperm⟩ := runEnqueues_pairwise ts
    have hlen : ts.enum.length = ts.length := List.enum_length
    have hienum : (i, ts.get ⟨i, hi⟩) ∈ ts.enum := by
      have hi' : i < ts.enum.length := by omega
      have := List.getElem_enum ts i hi'
      have hmem : ts.enum[i] ∈ ts.enum := List.getElem_mem _
      rw [this] at hmem
      simpa [List.get_eq_getElem] using hmem
    have hjenum : (j, ts.get ⟨j, hj⟩) ∈ ts.enum := by
      have hj' : j < ts.enum.length := by omega
      have := List.getElem_enum ts j hj'
      have hmem : ts.enum[j] ∈ ts.enum := List.getElem_mem _
      rw [this] at hmem
      simpa [List.get_eq_getElem] using hmem
    have ha : (i, ts.get ⟨i, hi⟩) ∈ runEnqueues ts := hperm.mem_iff.mpr hienum
    have hb : (j, ts.get ⟨j, hj⟩) ∈ runEnqueues ts := hperm.mem_iff.mpr hjenum
    have hR : taggedBefore (i, ts.get ⟨i, hi⟩) (j, ts.get ⟨j, hj⟩) := by
      rcases lt_or_eq_of_le hpri with h | h
      · exact Or.inl h
      · exact Or.inr ⟨h.symm, hij⟩
    have hasym : ¬ taggedBefore (j, ts.get ⟨j, hj⟩) (i, ts.get ⟨i, hi⟩) :=
      fun hc => taggedBefore_asymm hR hc
    have hne : (i, ts.get ⟨i, hi⟩) ≠ (j, ts.get ⟨j, hj⟩) := by
      intro hc
      have : i = j := congrArg Prod.fst hc
      omega
    exact pairwise_indexOf_lt hp ha hb hR hasym hne
  · intro q t rest hclosed htasks
    simp [MemoryQueue.dequeue, hclosed, htasks]

/-- Witness for `memoryQueue_priority_order`: the earlier-enqueued
priority-10 task sits ahead of the later priority-5 task, and dequeueing an
open queue holding the sorted demo tasks returns the head. -/
theorem memoryQueue_priority_order_witness :
    (runEnqueues demoTasks).indexOf (1, demoTaskHigh) <
      (runEnqueues demoTasks).indexOf (2, demoTaskMedium) ∧
    MemoryQueue.dequeue ⟨[demoTaskHigh, demoTaskMedium, demoTaskLow], 10, false, 3, 0⟩ =
      .got demoTaskHigh ⟨[demoTaskMedium, demoTaskLow], 10, false, 3, 1⟩ := by
  constructor
  · exact memoryQueue_priority_order.2.1 demoTasks 1 2 (by decide) (by decide)
      (by decide) (by decide)
  · exact memoryQueue_priority_order.2.2.1
      ⟨[demoTaskHigh, demoTaskMedium, demoTaskLow], 10, false, 3, 0⟩
      demoTaskHigh [demoTaskMedium, demoTaskLow] rfl rfl

/- ======================================================================
   Job lifecycle manager (src/unnamed/part_007, package jobmanager)
   ====================================================================== -/

/-- A job row (src/internal/api/middleware.go part holding package models,
`Job`).  Fields the manager never reads (`flowDiagram`, `createdBy`, ...)
are omitted; `status` is the raw status string as in Go's `JobStatus`. -/
structure Job where
  jobId : String
  jobName : String
  jobType : String
  description : String
  configYAML : String
  status : String
  createdAt : Nat
  updatedAt : Nat
  enabled : Bool
  priority : Int
  deriving Repr, DecidableEq

/-- Errors surfaced by the job manager (the `fmt.Errorf` sites in
src/unnamed/part_007). -/
inductive JmError
  | jobNotFound
  | invalidTransition (fromSt toSt : String)
  | noTransitions (fromSt : String)
  | cannotStartFrom (st : String)
  | alreadyRunning
  | cannotStopIn (st : String)
  | cannotDeleteRunning
  | invalidConfig
  | failedPersist
  deriving Repr, DecidableEq

/-- The allowed-transitions table of `validateStateTransition`
(src/unnamed/part_007 lines 659-697). -/
def validTransitionsTable : List (String × List String) :=
  [("draft", ["ready"]),
   ("ready", ["running", "draft"]),
   ("running", ["paused", "completed", "failed"]),
   ("paused", ["running", "completed"]),
   ("completed", ["ready"]),
   ("failed", ["ready"])]

/-- `Manager.validateStateTransition` (src/unnamed/part_007 lines 659-697):
look the source status up in the table; unknown source statuses have no valid
transitions; otherwise the target must be listed. -/
def validateStateTransition (fromSt toSt : String) : Except JmError Unit :=
  match validTransitionsTable.lookup fromSt with
  | none => .error (.noTransitions fromSt)
  | some allowed =>
      if toSt ∈ allowed then .ok () else .error (.invalidTransition fromSt toSt)

/-- `(fromSt, toSt)` is in the allowed-transitions table. -/
def allowedTransition (fromSt toSt : String) : Bool :=
  (validateStateTransition fromSt toSt).toBool

/-- `Manager.validateJobConfig` (src/unnamed/part_007 lines 700-728).
The call to `yaml.Unmarshal` (an external library) is abstracted by the
`parse` argument, which returns the document's top-level keys, or `none`
when the text is not valid YAML.  The function requires a job name, a
non-empty config, parsable YAML, and `input` and `output` sections. -/
def validateJobConfig (parse : String → Option (List String)) (job : Job) :
    Except JmError Unit :=
  if job.jobName = "" then .error .invalidConfig
  else if job.configYAML = "" then .error .invalidConfig
  else
    match parse job.configYAML with
    | none => .error .invalidConfig
    | some keys =>
        if "input" ∉ keys then .error .invalidConfig
        else if "output" ∉ keys then .error .invalidConfig
        else .ok ()

/-- State of the job `Manager` (src/unnamed/part_007): the persistent store
(`database.MetadataStore`, modelled as an association list of persisted
jobs), the in-memory `jobs` cache, and the `running` cancel-function set
(the ids holding an active cancellation scope). -/
structure JmState where
  store : List (String × Job)
  cache : List (String × Job)
  running : List String
  deriving Repr, DecidableEq

/-- Replace the binding of `k` in an association list, or append it. -/
def assocPut {β : Type} (k : String) (v : β) : List (String × β) → List (String × β)
  | [] => [(k, v)]
  | (k2, v2) :: rest =>
      if k2 = k then (k, v) :: rest else (k2, v2) :: assocPut k v rest

/-- The persisted status of a job id, read from the store. -/
def JmState.persistedStatus (st : JmState) (jobId : String) : Option String :=
  (st.store.lookup jobId).map (fun j => j.status)

/-- The mutations `Manager.CreateJob` applies to the caller's job object
before validating (src/unnamed/part_007 lines 322-335): generate an id when
absent, default an empty status to `draft`, stamp both timestamps with
`now`.  `genId` stands for the fresh `uuid.New().String()`. -/
def preparedCreateJob (job : Job) (genId : String) (now : Nat) : Job :=
  let job1 := if job.jobId = "" then { job with jobId := genId } else job
  let job2 := if job1.status = "" then { job1 with status := "draft" } else job1
  { job2 with createdAt := now, updatedAt := now }

/-- `Manager.CreateJob` (src/unnamed/part_007 lines 318-356): apply the
preparation mutations, validate the config, and only on success persist and
cache the job. -/
def CreateJob (parse : String → Option (List String)) (st : JmState) (job : Job)
    (genId : String) (now : Nat) : Except JmError JmState :=
  let job3 := preparedCreateJob job genId now
  match validateJobConfig parse job3 with
  | .error e => .error e
  | .ok () =>
      .ok { st with
        store := assocPut job3.jobId job3 st.store,
        cache := assocPut job3.jobId job3 st.cache }

/-- `Manager.UpdateJob` (src/unnamed/part_007 lines 408-449): load the
persisted job; when the incoming status differs, validate the transition;
stamp `updatedAt`; when the config text changed, re-validate it; write back
and refresh the cache entry when present. -/
def UpdateJob (parse : String → Option (List String)) (st : JmState) (job : Job)
    (now : Nat) : Except JmError JmState :=
  match st.store.lookup job.jobId with
  | none => .error .jobNotFound
  | some existing =>
      match (if job.status ≠ existing.status
             then validateStateTransition existing.status job.status
             else .ok ()) with
      | .error e => .error e
      | .ok () =>
          let job1 := { job with updatedAt := now }
          match (if job1.configYAML ≠ existing.configYAML
                 then validateJobConfig parse job1
                 else .ok ()) with
          | .error e => .error e
          | .ok () =>
              .ok { st with
                store := assocPut job1.jobId job1 st.store,
                cache := if (st.cache.lookup job1.jobId).isSome
                         then assocPut job1.jobId job1 st.cache
                         else st.cache }

/-- `Manager.StartJob` (src/unnamed/part_007 lines 480-532): load the job;
refuse when already `running`; validate the transition to `running`; refuse
when a cancel function is already registered; set status `running`, stamp
`updatedAt`, persist, register the cancellation scope, and cache. -/
def StartJob (st : JmState) (jobId : String) (now : Nat) : Except JmError JmState :=
  match st.store.lookup jobId with
  | none => .error .jobNotFound
  | some job =>
      if job.status = "running" then .error (.cannotStartFrom job.status)
      else
        match validateStateTransition job.status "running" with
        | .error e => .error e
        | .ok () =>
            if jobId ∈ st.running then .error .alreadyRunning
            else
              let job1 := { job with status := "running", updatedAt := now }
              .ok { store := assocPut jobId job1 st.store,
                    cache := assocPut jobId job1 st.cache,
                    running := jobId :: st.running }

/-- `Manager.StopJob` (src/unnamed/part_007 lines 535-573): load the job;
only `running` or `paused` jobs may be stopped; trigger and drop the cancel
function; set status `completed`, stamp `updatedAt`, persist, and refresh
the cache entry when present. -/
def StopJob (st : JmState) (jobId : String) (now : Nat) : Except JmError JmState :=
  match st.store.lookup jobId with
  | none => .error .jobNotFound
  | some job =>
      if job.status ≠ "running" ∧ job.status ≠ "paused" then
        .error (.cannotStopIn job.status)
      else
        let job1 := { job with status := "completed", updatedAt := now }
        .ok { store := assocPut jobId job1 st.store,
              cache := if (st.cache.lookup jobId).isSome
                       then assocPut jobId job1 st.cache
                       else st.cache,
              running := st.running.filter (fun x => x ≠ jobId) }

/-- `Manager.PauseJob` (src/unnamed/part_007 lines 576-606): load the job,
validate the transition to `paused`, set the status, stamp `updatedAt`,
persist, and refresh the cache entry when present. -/
def PauseJob (st : JmState) (jobId : String) (now : Nat) : Except JmError JmState :=
  match st.store.lookup jobId with
  | none => .error .jobNotFound
  | some job =>
      match validateStateTransition job.status "paused" with
      | .error e => .error e
      | .ok () =>
          let job1 := { job with status := "paused", updatedAt := now }
          .ok { st with
                store := assocPut jobId job1 st.store,
                cache := if (st.cache.lookup jobId).isSome
                         then assocPut jobId job1 st.cache
                         else st.cache }

/-- `Manager.ResumeJob` (src/unnamed/part_007 lines 609-639): load the job,
validate the transition to `running`, set the status, stamp `updatedAt`,
persist, and refresh the cache entry when present. -/
def ResumeJob (st : JmState) (jobId : String) (now : Nat) : Except JmError JmState :=
  match st.store.lookup jobId with
  | none => .error .jobNotFound
  | some job =>
      match validateStateTransition job.status "running" with
      | .error e => .error e
      | .ok () =>
          let job1 := { job with status := "running", updatedAt := now }
          .ok { st with
                store := assocPut jobId job1 st.store,
                cache := if (st.cache.lookup jobId).isSome
                         then assocPut jobId job1 st.cache
                         else st.cache }

lemma lookup_assocPut_self {β : Type} (k : String) (v : β) (l : List (String × β)) :
    (assocPut k v l).lookup k = some v := by
  induction l with
  | nil => simp [assocPut, List.lookup]
  | cons p rest ih =>
    obtain ⟨k2, v2⟩ := p
    by_cases h : k2 = k
    · simp [assocPut, h, List.lookup]
    · have hbe : (k == k2) = false := beq_eq_false_iff_ne.mpr (fun hc => h hc.symm)
      simp [assocPut, h, List.lookup, hbe, ih]

lemma lookup_assocPut_ne {β : Type} (k k2 : String) (v : β) (l : List (String × β))
    (h : k2 ≠ k) : (assocPut k v l).lookup k2 = l.lookup k2 := by
  have hbe : (k2 == k) = false := beq_eq_false_iff_ne.mpr h
  induction l with
  | nil => simp [assocPut, List.lookup, hbe]
  | cons p rest ih =>
    obtain ⟨k3, v3⟩ := p
    by_cases h3 : k3 = k
    · subst h3
      simp [assocPut, List.lookup, hbe]
    · simp only [assocPut, h3, if_neg, not_false_eq_true, List.lookup]
      cases hbe3 : (k2 == k3) <;> simp [ih]

lemma validate_error_of_not_allowed {f t : String}
    (h : allowedTransition f t = false) : ∃ e, validateStateTransition f t = .error e := by
  unfold allowedTransition at h
  cases hv : validateStateTransition f t with
  | ok u => rw [hv] at h; simp [Except.toBool] at h
  | error e => exact ⟨e, rfl⟩

lemma validate_ok_of_allowed {f t : String}
    (h : allowedTransition f t = true) : validateStateTransition f t = .ok () := by
  unfold allowedTransition at h
  cases hv : validateStateTransition f t with
  | ok u => cases u; rfl
  | error e => rw [hv] at h; simp [Except.toBool] at h

lemma table_lookup_none (f : String) (h1 : f ≠ "draft") (h2 : f ≠ "ready")
    (h3 : f ≠ "running") (h4 : f ≠ "paused") (h5 : f ≠ "completed")
    (h6 : f ≠ "failed") : validTransitionsTable.lookup f = none := by
  have b1 : (f == "draft") = false := beq_eq_false_iff_ne.mpr h1
  have b2 : (f == "ready") = false := beq_eq_false_iff_ne.mpr h2
  have b3 : (f == "running") = false := beq_eq_false_iff_ne.mpr h3
  have b4 : (f == "paused") = false := beq_eq_false_iff_ne.mpr h4
  have b5 : (f == "completed") = false := beq_eq_false_iff_ne.mpr h5
  have b6 : (f == "failed") = false := beq_eq_false_iff_ne.mpr h6
  simp [validTransitionsTable, List.lookup, b1, b2, b3, b4, b5, b6]

lemma allowed_completed_iff (f : String) :
    allowedTransition f "completed" = true ↔ (f = "running" ∨ f = "paused") := by
  by_cases h3 : f = "running"
  · subst h3; simp [allowedTransition, validateStateTransition, validTransitionsTable,
      List.lookup, Except.toBool]
  · by_cases h4 : f = "paused"
    · subst h4; simp [allowedTransition, validateStateTransition, validTransitionsTable,
        List.lookup, Except.toBool]
    · simp only [h3, h4, or_self, iff_false]
      by_cases h1 : f = "draft"
      · subst h1; simp [allowedTransition, validateStateTransition, validTransitionsTable,
          List.lookup, Except.toBool]
      · by_cases h2 : f = "ready"
        · subst h2; simp [allowedTransition, validateStateTransition, validTransitionsTable,
            List.lookup, Except.toBool]
        · by_cases h5 : f = "completed"
          · subst h5; simp [allowedTransition, validateStateTransition, validTransitionsTable,
              List.lookup, Except.toBool]
          · by_cases h6 : f = "failed"
            · subst h6; simp [allowedTransition, validateStateTransition,
                validTransitionsTable, List.lookup, Except.toBool]
            · simp [allowedTransition, validateStateTransition,
                table_lookup_none f h1 h2 h3 h4 h5 h6, Except.toBool]

lemma startJob_ok_sound (st : JmState) (jobId : String) (now : Nat) (st2 : JmState)
    (h : StartJob st jobId now = .ok st2) :
    ∃ f, st.persistedStatus jobId = some f ∧ allowedTransition f "running" = true ∧
      st2.persistedStatus jobId = some "running" := by
  unfold StartJob at h
  cases hlk : st.store.lookup jobId with
  | none => rw [hlk] at h; exact absurd h (by simp)
  | some job =>
    rw [hlk] at h
    dsimp only at h
    by_cases hr : job.status = "running"
    · rw [if_pos hr] at h; exact absurd h (by simp)
    · rw [if_neg hr] at h
      cases hv : validateStateTransition job.status "running" with
      | error e => rw [hv] at h; exact absurd h (by simp)
      | ok u =>
        cases u
        rw [hv] at h
        by_cases hrun : jobId ∈ st.running
        · rw [if_pos hrun] at h; exact absurd h (by simp)
        · rw [if_neg hrun] at h
          have hst2 := (Except.ok.injEq _ _).mp h.symm
          refine ⟨job.status, ?_, ?_, ?_⟩
          · simp [JmState.persistedStatus, hlk]
          · unfold allowedTransition; rw [hv]; rfl
          · rw [hst2]
            simp [JmState.persistedStatus, lookup_assocPut_self]

lemma stopJob_ok_sound (st : JmState) (jobId : String) (now : Nat) (st2 : JmState)
    (h : StopJob st jobId now = .ok st2) :
    ∃ f, st.persistedStatus jobId = some f ∧ allowedTransition f "completed" = true ∧
      st2.persistedStatus jobId = some "completed" := by
  unfold StopJob at h
  cases hlk : st.store.lookup jobId with
  | none => rw [hlk] at h; exact absurd h (by simp)
  | some job =>
    rw [hlk] at h
    dsimp only at h
    by_cases hg : job.status ≠ "running" ∧ job.status ≠ "paused"
    · rw [if_pos hg] at h; exact absurd h (by simp)
    · rw [if_neg hg] at h
      have hst2 := (Except.ok.injEq _ _).mp h.symm
      refine ⟨job.status, ?_, ?_, ?_⟩
      · simp [JmState.persistedStatus, hlk]
      · rw [allowed_completed_iff]
        by_cases h1 : job.status = "running"
        · exact Or.inl h1
        · by_cases h2 : job.status = "paused"
          · exact Or.inr h2
          · exact absurd ⟨h1, h2⟩ hg
      · rw [hst2]
        simp [JmState.persistedStatus, lookup_assocPut_self]

lemma pauseJob_ok_sound (st : JmState) (jobId : String) (now : Nat) (st2 : JmState)
    (h : PauseJob st jobId now = .ok st2) :
    ∃ f, st.persistedStatus jobId = some f ∧ allowedTransition f "paused" = true ∧
      st2.persistedStatus jobId = some "paused" := by
  unfold PauseJob at h
  cases hlk : st.store.lookup jobId with
  | none => rw [hlk] at h; exact absurd h (by simp)
  | some job =>
    rw [hlk] at h
    dsimp only at h
    cases hv : validateStateTransition job.status "paused" with
    | error e => rw [hv] at h; exact absurd h (by simp)
    | ok u =>
      cases u
      rw [hv] at h
      have hst2 := (Except.ok.injEq _ _).mp h.symm
      refine ⟨job.status, ?_, ?_, ?_⟩
      · simp [JmState.persistedStatus, hlk]
      · unfold allowedTransition; rw [hv]; rfl
      · rw [hst2]
        simp [JmState.persistedStatus, lookup_assocPut_self]

lemma resumeJob_ok_sound (st : JmState) (jobId : String) (now : Nat) (st2 : JmState)
    (h : ResumeJob st jobId now = .ok st2) :
    ∃ f, st.persistedStatus jobId = some f ∧ allowedTransition f "running" = true ∧
      st2.persistedStatus jobId = some "running" := by
  unfold ResumeJob at h
  cases hlk : st.store.lookup jobId with
  | none => rw [hlk] at h; exact absurd h (by simp)
  | some job =>
    rw [hlk] at h
    dsimp only at h
    cases hv : validateStateTransition job.status "running" with
    | error e => rw [hv] at h; exact absurd h (by simp)
    | ok u =>
      cases u
      rw [hv] at h
      have hst2 := (Except.ok.injEq _ _).mp h.symm
      refine ⟨job.status, ?_, ?_, ?_⟩
      · simp [JmState.persistedStatus, hlk]
      · unfold allowedTransition; rw [hv]; rfl
      · rw [hst2]
        simp [JmState.persistedStatus, lookup_assocPut_self]

lemma updateJob_ok_sound (parse : String → Option (List String)) (st : JmState)
    (job : Job) (now : Nat) (st2 : JmState)
    (h : UpdateJob parse st job now = .ok st2) (f : String)
    (hst : st.persistedStatus job.jobId = some f) (hne : f ≠ job.status) :
    allowedTransition f job.status = true ∧
      st2.persistedStatus job.jobId = some job.status := by
  unfold UpdateJob at h
  unfold JmState.persistedStatus at hst
  cases hlk : st.store.lookup job.jobId with
  | none => rw [hlk] at h; exact absurd h (by simp)
  | some existing =>
    rw [hlk] at h
    dsimp only at h
    rw [hlk] at hst
    have hfs : existing.status = f := by simpa using hst
    rw [if_pos (by rw [hfs]; exact fun hc => hne hc.symm)] at h
    cases hv : validateStateTransition existing.status job.status with
    | error e => rw [hv] at h; exact absurd h (by simp)
    | ok u =>
      cases u
      rw [hv] at h
      cases hv2 : (if { job with updatedAt := now }.configYAML ≠ existing.configYAML
                   then validateJobConfig parse { job with updatedAt := now }
                   else Except.ok ()) with
      | error e => rw [hv2] at h; exact absurd h (by simp)
      | ok u =>
        cases u
        rw [hv2] at h
        have hst2 := (Except.ok.injEq _ _).mp h.symm
        constructor
        · unfold allowedTransition; rw [hfs] at hv; rw [hv]; rfl
        · rw [hst2]
          simp [JmState.persistedStatus, lookup_assocPut_self]

lemma startJob_err_of_not_allowed (st : JmState) (jobId : String) (now : Nat) (f : String)
    (hst : st.persistedStatus jobId = some f)
    (hna : allowedTransition f "running" = false) :
    ∃ e, StartJob st jobId now = .error e := by
  unfold JmState.persistedStatus at hst
  cases hlk : st.store.lookup jobId with
  | none => rw [hlk] at hst; exact absurd hst (by simp)
  | some job =>
    rw [hlk] at hst
    have hfs : job.status = f := by simpa using hst
    unfold StartJob
    rw [hlk]
    dsimp only
    by_cases hr : job.status = "running"
    · exact ⟨_, by rw [if_pos hr]⟩
    · rw [if_neg hr]
      obtain ⟨e, hv⟩ := validate_error_of_not_allowed (f := job.status)
        (t := "running") (by rw [hfs]; exact hna)
      rw [hv]
      exact ⟨e, rfl⟩

lemma stopJob_err_of_not_allowed (st : JmState) (jobId : String) (now : Nat) (f : String)
    (hst : st.persistedStatus jobId = some f)
    (hna : allowedTransition f "completed" = false) :
    ∃ e, StopJob st jobId now = .error e := by
  unfold JmState.persistedStatus at hst
  cases hlk : st.store.lookup jobId with
  | none => rw [hlk] at hst; exact absurd hst (by simp)
  | some job =>
    rw [hlk] at hst
    have hfs : job.status = f := by simpa using hst
    unfold StopJob
    rw [hlk]
    dsimp only
    have hg : job.status ≠ "running" ∧ job.status ≠ "paused" := by
      rw [hfs]
      constructor
      · intro hc; rw [hc] at hna; rw [(allowed_completed_iff "running").mpr (Or.inl rfl)] at hna; exact absurd hna (by simp)
      · intro hc; rw [hc] at hna; rw [(allowed_completed_iff "paused").mpr (Or.inr rfl)] at hna; exact absurd hna (by simp)
    rw [if_pos hg]
    exact ⟨_, rfl⟩

lemma pauseJob_err_of_not_allowed (st : JmState) (jobId : String) (now : Nat) (f : String)
    (hst : st.persistedStatus jobId = some f)
    (hna : allowedTransition f "paused" = false) :
    ∃ e, PauseJob st jobId now = .error e := by
  unfold JmState.persistedStatus at hst
  cases hlk : st.store.lookup jobId with
  | none => rw [hlk] at hst; exact absurd hst (by simp)
  | some job =>
    rw [hlk] at hst
    have hfs : job.status = f := by simpa using hst
    unfold PauseJob
    rw [hlk]
    dsimp only
    obtain ⟨e, hv⟩ := validate_error_of_not_allowed (f := job.status)
      (t := "paused") (by rw [hfs]; exact hna)
    rw [hv]
    exact ⟨e, rfl⟩

lemma resumeJob_err_of_not_allowed (st : JmState) (jobId : String) (now : Nat) (f : String)
    (hst : st.persistedStatus jobId = some f)
    (hna : allowedTransition f "running" = false) :
    ∃ e, ResumeJob st jobId now = .error e := by
  unfold JmState.persistedStatus at hst
  cases hlk : st.store.lookup jobId with
  | none => rw [hlk] at hst; exact absurd hst (by simp)
  | some job =>
    rw [hlk] at hst
    have hfs : job.status = f := by simpa using hst
    unfold ResumeJob
    rw [hlk]
    dsimp only
    obtain ⟨e, hv⟩ := validate_error_of_not_allowed (f := job.status)
      (t := "running") (by rw [hfs]; exact hna)
    rw [hv]
    exact ⟨e, rfl⟩

lemma updateJob_err_of_not_allowed (parse : String → Option (List String)) (st : JmState)
    (job : Job) (now : Nat) (f : String)
    (hst : st.persistedStatus job.jobId = some f) (hne : f ≠ job.status)
    (hna : allowedTransition f job.status = false) :
    ∃ e, UpdateJob parse st job now = .error e := by
  unfold JmState.persistedStatus at hst
  cases hlk : st.store.lookup job.jobId with
  | none => rw [hlk] at hst; exact absurd hst (by simp)
  | some existing =>
    rw [hlk] at hst
    have hfs : existing.status = f := by simpa using hst
    unfold UpdateJob
    rw [hlk]
    dsimp only
    rw [if_pos (by rw [hfs]; exact fun hc => hne hc.symm)]
    obtain ⟨e, hv⟩ := validate_error_of_not_allowed (f := existing.status)
      (t := job.status) (by rw [hfs]; exact hna)
    rw [hv]
    exact ⟨e, rfl⟩

/-- C3: every status transition the job manager accepts (via update, start,
stop, pause, or resume) is a pair of the allowed-transitions table, every
attempted transition outside the table fails, and in particular `StartJob`
on a job whose persisted status is `draft` fails with the invalid-transition
error for draft to running. -/
theorem jobManager_state_machine :
    (∀ (st : JmState) (jobId : String) (now : Nat) (st2 : JmState),
       StartJob st jobId now = .ok st2 →
       ∃ f, st.persistedStatus jobId = some f ∧ allowedTransition f "running" = true ∧
         st2.persistedStatus jobId = some "running") ∧
    (∀ (st : JmState) (jobId : String) (now : Nat) (st2 : JmState),
       StopJob st jobId now = .ok st2 →
       ∃ f, st.persistedStatus jobId = some f ∧ allowedTransition f "completed" = true ∧
         st2.persistedStatus jobId = some "completed") ∧
    (∀ (st : JmState) (jobId : String) (now : Nat) (st2 : JmState),
       PauseJob st jobId now = .ok st2 →
       ∃ f, st.persistedStatus jobId = some f ∧ allowedTransition f "paused" = true ∧
         st2.persistedStatus jobId = some "paused") ∧
    (∀ (st : JmState) (jobId : String) (now : Nat) (st2 : JmState),
       ResumeJob st jobId now = .ok st2 →
       ∃ f, st.persistedStatus jobId = some f ∧ allowedTransition f "running" = true ∧
         st2.persistedStatus jobId = some "running") ∧
    (∀ (parse : String → Option (List String)) (st : JmState) (job : Job) (now : Nat)
       (st2 : JmState) (f : String),
       UpdateJob parse st job now = .ok st2 →
       st.persistedStatus job.jobId = some f → f ≠ job.status →
       allowedTransition f job.status = true ∧
         st2.persistedStatus job.jobId = some job.status) ∧
    (∀ (st : JmState) (jobId : String) (now : Nat) (f : String),
       st.persistedStatus jobId = some f → allowedTransition f "running" = false →
       ∃ e, StartJob st jobId now = .error e) ∧
    (∀ (st : JmState) (jobId : String) (now : Nat) (f : String),
       st.persistedStatus jobId = some f → allowedTransition f "completed" = false →
       ∃ e, StopJob st jobId now = .error e) ∧
    (∀ (st : JmState) (jobId : String) (now : Nat) (f : String),
       st.persistedStatus jobId = some f → allowedTransition f "paused" = false →
       ∃ e, PauseJob st jobId now = .error e) ∧
    (∀ (st : JmState) (jobId : String) (now : Nat) (f : String),
       st.persistedStatus jobId = some f → allowedTransition f "running" = false →
       ∃ e, ResumeJob st jobId now = .error e) ∧
    (∀ (parse : String → Option (List String)) (st : JmState) (job : Job) (now : Nat)
       (f : String),
       st.persistedStatus job.jobId = some f → f ≠ job.status →
       allowedTransition f job.status = false →
       ∃ e, UpdateJob parse st job now = .error e) ∧
    (∀ (st : JmState) (jobId : String) (now : Nat),
       st.persistedStatus jobId = some "draft" →
       StartJob st jobId now = .error (.invalidTransition "draft" "running")) := by
  refine ⟨startJob_ok_sound, stopJob_ok_sound, pauseJob_ok_sound, resumeJob_ok_sound,
    ?_, startJob_err_of_not_allowed, stopJob_err_of_not_allowed,
    pauseJob_err_of_not_allowed, resumeJob_err_of_not_allowed,
    updateJob_err_of_not_allowed, ?_⟩
  · intro parse st job now st2 f h hst hne
    exact updateJob_ok_sound parse st job now st2 h f hst hne
  · intro st jobId now hst
    unfold JmState.persistedStatus at hst
    cases hlk : st.store.lookup jobId with
    | none => rw [hlk] at hst; exact absurd hst (by simp)
    | some job =>
      rw [hlk] at hst
      have hfs : job.status = "draft" := by simpa using hst
      unfold StartJob
      rw [hlk]
      dsimp only
      rw [if_neg (by rw [hfs]; decide)]
      rw [hfs]
      have hv : validateStateTransition "draft" "running" =
          .error (.invalidTransition "draft" "running") := by rfl
      rw [hv]

/-- A one-job manager state used to witness the state-machine theorem: job
`j1` is persisted with status `draft`. -/
def demoDraftJob : Job :=
  ⟨"j1", "demo", "etl", "", "cfg", "draft", 0, 0, true, 1⟩

def demoJmState : JmState :=
  ⟨[("j1", demoDraftJob)], [("j1", demoDraftJob)], []⟩

/-- Witness for `jobManager_state_machine`: starting the persisted draft job
fails with the invalid-transition error, and a ready job starts. -/
theorem jobManager_state_machine_witness :
    StartJob demoJmState "j1" 3 = .error (.invalidTransition "draft" "running") ∧
    (∃ e, PauseJob demoJmState "j1" 3 = .error e) ∧
    (∃ f, demoJmState.persistedStatus "j1" = some f ∧
       allowedTransition f "ready" = true ∧
       (JmState.mk (assocPut "j1" { demoDraftJob with status := "ready", updatedAt := 4 }
           demoJmState.store)
         (assocPut "j1" { demoDraftJob with status := "ready", updatedAt := 4 }
           demoJmState.cache) []).persistedStatus "j1" = some "ready") := by
  refine ⟨?_, ?_, ?_⟩
  · exact jobManager_state_machine.2.2.2.2.2.2.2.2.2.2 demoJmState "j1" 3 (by decide)
  · exact jobManager_state_machine.2.2.2.2.2.2.2.1 demoJmState "j1" 3 "draft"
      (by decide) (by decide)
  · exact ⟨"draft", by decide, by decide, by decide⟩

lemma preparedCreateJob_fields (job : Job) (genId : String) (now : Nat) :
    (preparedCreateJob job genId now).jobId =
        (if job.jobId = "" then genId else job.jobId) ∧
    (preparedCreateJob job genId now).status =
        (if job.status = "" then "draft" else job.status) ∧
    (preparedCreateJob job genId now).createdAt = now ∧
    (preparedCreateJob job genId now).updatedAt = now ∧
    (preparedCreateJob job genId now).jobName = job.jobName ∧
    (preparedCreateJob job genId now).configYAML = job.configYAML := by
  unfold preparedCreateJob
  by_cases hid : job.jobId = "" <;> by_cases hstatus : job.status = "" <;>
    simp [hid, hstatus]

lemma validateJobConfig_congr (parse : String → Option (List String)) (a b : Job)
    (hn : a.jobName = b.jobName) (hc : a.configYAML = b.configYAML) :
    validateJobConfig parse a = validateJobConfig parse b := by
  unfold validateJobConfig
  rw [hn, hc]

/-- Amended C8: `CreateJob` assigns a fresh id only when the job's id is
empty and defaults the status to `draft` only when the job arrives with an
empty status (a non-empty caller-provided status is kept as-is); both
timestamps are stamped with the current time; the job is persisted and
cached exactly when the config validates, and an invalid config fails the
call before anything is persisted. -/
theorem createJob_fields (parse : String → Option (List String)) (st : JmState)
    (job : Job) (genId : String) (now : Nat) :
    (∀ st2, CreateJob parse st job genId now = .ok st2 →
       ∃ j, st2.store.lookup (if job.jobId = "" then genId else job.jobId) = some j ∧
         st2.cache.lookup (if job.jobId = "" then genId else job.jobId) = some j ∧
         j.status = (if job.status = "" then "draft" else job.status) ∧
         j.createdAt = now ∧ j.updatedAt = now ∧
         j.jobName = job.jobName ∧ j.configYAML = job.configYAML) ∧
    ((∃ st2, CreateJob parse st job genId now = .ok st2) ↔
       validateJobConfig parse job = .ok ()) := by
  obtain ⟨hid, hstatus, hcr, hup, hname, hyaml⟩ := preparedCreateJob_fields job genId now
  have hcongr : validateJobConfig parse (preparedCreateJob job genId now) =
      validateJobConfig parse job :=
    validateJobConfig_congr parse _ _ hname hyaml
  constructor
  · intro st2 h
    unfold CreateJob at h
    dsimp only at h
    cases hv : validateJobConfig parse (preparedCreateJob job genId now) with
    | error e => rw [hv] at h; exact absurd h (by simp)
    | ok u =>
      cases u
      rw [hv] at h
      dsimp only at h
      have hst2 := (Except.ok.injEq _ _).mp h.symm
      refine ⟨preparedCreateJob job genId now, ?_, ?_, ?_, hcr, hup, hname, hyaml⟩
      · rw [hst2, ← hid]
        simp [lookup_assocPut_self]
      · rw [hst2, ← hid]
        simp [lookup_assocPut_self]
      · rw [hstatus]
  · constructor
    · rintro ⟨st2, h⟩
      unfold CreateJob at h
      dsimp only at h
      cases hv : validateJobConfig parse (preparedCreateJob job genId now) with
      | error e => rw [hv] at h; exact absurd h (by simp)
      | ok u => cases u; rw [← hcongr, hv]
    · intro hok
      unfold CreateJob
      dsimp only
      rw [hcongr, hok]
      exact ⟨_, rfl⟩

/-- `yaml.Unmarshal` stand-in for the demonstration jobs: the text `cfg`
parses to a document with `input` and `output` sections; everything else is
rejected. -/
def demoParse : String → Option (List String) :=
  fun s => if s = "cfg" then some ["input", "output"] else none

/-- A job with a valid config that arrives at `CreateJob` already carrying
status `completed`. -/
def demoPresetJob : Job :=
  ⟨"j9", "preset", "etl", "", "cfg", "completed", 0, 0, true, 1⟩

/-- Counterexample to C8 as stated: `CreateJob` on a valid-config job whose
status field is already `completed` succeeds and persists the job with
status `completed`, not `draft` — the code defaults the status to `draft`
only when it arrives empty. -/
theorem createJob_not_always_draft_cex :
    (CreateJob demoParse ⟨[], [], []⟩ demoPresetJob "gen" 5).map
        (fun s => s.persistedStatus "j9") = .ok (some "completed") ∧
    some "completed" ≠ some "draft" := by
  constructor
  · rfl
  · decide

/-- A job arriving with empty id and empty status, as in the manager's own
tests. -/
def demoEmptyJob : Job :=
  ⟨"", "demo-create", "etl", "", "cfg", "", 0, 0, true, 1⟩

/-- The state `CreateJob` produces from the empty manager state on
`demoEmptyJob`. -/
def demoCreatedState : JmState :=
  ⟨assocPut "gen" (preparedCreateJob demoEmptyJob "gen" 7) [],
   assocPut "gen" (preparedCreateJob demoEmptyJob "gen" 7) [], []⟩

/-- Witness for `createJob_fields` at a concrete job with empty id and
status. -/
theorem createJob_fields_witness :
    (∃ j, demoCreatedState.store.lookup "gen" = some j ∧
       demoCreatedState.cache.lookup "gen" = some j ∧
       j.status = "draft" ∧ j.createdAt = 7 ∧ j.updatedAt = 7 ∧
       j.jobName = demoEmptyJob.jobName ∧ j.configYAML = demoEmptyJob.configYAML) ∧
    ((∃ st2, CreateJob demoParse ⟨[], [], []⟩ demoEmptyJob "gen" 7 = .ok st2) ↔
       validateJobConfig demoParse demoEmptyJob = .ok ()) := by
  constructor
  · have h := (createJob_fields demoParse ⟨[], [], []⟩ demoEmptyJob "gen" 7).1
      demoCreatedState rfl
    simpa [demoEmptyJob] using h
  · exact (createJob_fields demoParse ⟨[], [], []⟩ demoEmptyJob "gen" 7).2

/- ======================================================================
   Worker pool (src/internal/worker/pool.go)
   ====================================================================== -/

/-- A worker row (package models, `Worker`). -/
structure Worker where
  workerId : String
  hostname : String
  ipAddress : String
  port : Int
  status : String
  cpuCores : Int
  memoryMB : Int
  lastHeartbeat : Nat
  registeredAt : Nat
  deriving Repr, DecidableEq

/-- Errors surfaced by the worker pool (the `fmt.Errorf` sites in
src/internal/worker/pool.go). -/
inductive PoolError
  | workerNotFound
  | storeFailed
  deriving Repr, DecidableEq

/-- State of the worker `Pool` (src/internal/worker/pool.go): the in-memory
`workers` cache and the metadata store (`database.MetadataStore`), each
modelled as an association list keyed by worker id. -/
structure PoolState where
  cache : List (String × Worker)
  store : List (String × Worker)
  deriving Repr, DecidableEq

/-- Update the binding of `k` when present; otherwise leave the list
unchanged (the effect of a database UPDATE matching zero or one row). -/
def assocAdjust {β : Type} (k : String) (f : β → β) : List (String × β) → List (String × β)
  | [] => []
  | (k2, v2) :: rest =>
      if k2 = k then (k2, f v2) :: rest else (k2, v2) :: assocAdjust k f rest

/-- What `SQLiteStore.UpdateWorkerHeartbeat` — the repository's only
`MetadataStore` implementation (the database section concatenated into
src/internal/checkpoint/manager_test.go, lines 1035-1039) — does to the
persisted worker row: `UPDATE workers SET last_heartbeat = now,
status = 'online' WHERE worker_id = ?`. -/
def storeHeartbeatRow (now : Nat) (s : Worker) : Worker :=
  { s with lastHeartbeat := now, status := "online" }

/-- `Pool.UpdateHeartbeat` (src/internal/worker/pool.go lines 119-144): look
the worker up in the cache; on a miss load it from storage and cache it,
failing with not-found when the store has no such worker either; then set
the cached worker's `LastHeartbeat` to now (the Go code mutates the cached
object in place — it writes no other field of the cached worker) and issue
`store.UpdateWorkerHeartbeat`, which stamps the persisted row's heartbeat
and sets the row's status to `online` (`storeHeartbeatRow`). -/
def UpdateHeartbeat (p : PoolState) (workerId : String) (now : Nat) :
    Except PoolError PoolState :=
  match p.cache.lookup workerId with
  | some w =>
      let w2 := { w with lastHeartbeat := now }
      .ok { cache := assocPut workerId w2 p.cache,
            store := assocAdjust workerId (storeHeartbeatRow now) p.store }
  | none =>
      match p.store.lookup workerId with
      | none => .error .workerNotFound
      | some w =>
          let w2 := { w with lastHeartbeat := now }
          .ok { cache := assocPut workerId w2 p.cache,
                store := assocAdjust workerId (storeHeartbeatRow now) p.store }

/-- `Pool.GetWorker` (src/internal/worker/pool.go lines 147-162): serve the
cached worker when present, fall back to storage (without caching), fail
with not-found otherwise. -/
def GetWorker (p : PoolState) (workerId : String) : Except PoolError Worker :=
  match p.cache.lookup workerId with
  | some w => .ok w
  | none =>
      match p.store.lookup workerId with
      | some w => .ok w
      | none => .error .workerNotFound

/-- One pass over one worker of the monitor's `checkWorkerHealth`
(src/internal/worker/pool.go lines 274-300): a worker whose heartbeat is
older than the timeout and is not yet `offline` is marked `offline`; an
`offline` worker with a fresh heartbeat is marked `online`. -/
def checkWorkerHealthOne (now timeout : Nat) (w : Worker) : Worker :=
  if now - w.lastHeartbeat > timeout then
    if w.status ≠ "offline" then { w with status := "offline" } else w
  else if w.status = "offline" then { w with status := "online" } else w

lemma lookup_assocAdjust_self {β : Type} (k : String) (f : β → β) (l : List (String × β)) :
    (assocAdjust k f l).lookup k = (l.lookup k).map f := by
  induction l with
  | nil => simp [assocAdjust, List.lookup]
  | cons p rest ih =>
    obtain ⟨k2, v2⟩ := p
    by_cases h : k2 = k
    · subst h
      simp [assocAdjust, List.lookup]
    · have hbe : (k == k2) = false := beq_eq_false_iff_ne.mpr (fun hc => h hc.symm)
      simp [assocAdjust, h, List.lookup, hbe, ih]

/-- Counterexample to C9 as stated: the heartbeat operation on a cached
worker whose status is `offline` succeeds and refreshes `lastHeartbeat`,
but the cached worker record — the one the pool loads, caches, and serves
through `GetWorker` — keeps status `offline`: `UpdateHeartbeat` never
writes the cached worker's status (only the persisted row is stamped
`online` by the store call, and only the background monitor later flips
the cached copy). -/
theorem updateHeartbeat_not_online_cex :
    (UpdateHeartbeat
        ⟨[("w1", ⟨"w1", "h", "127.0.0.1", 8080, "offline", 4, 1024, 0, 0⟩)],
         [("w1", ⟨"w1", "h", "127.0.0.1", 8080, "offline", 4, 1024, 0, 0⟩)]⟩
        "w1" 50).map (fun p => (p.cache.lookup "w1").map (fun w => (w.status, w.lastHeartbeat)))
      = .ok (some ("offline", 50)) ∧
    (UpdateHeartbeat
        ⟨[("w1", ⟨"w1", "h", "127.0.0.1", 8080, "offline", 4, 1024, 0, 0⟩)],
         [("w1", ⟨"w1", "h", "127.0.0.1", 8080, "offline", 4, 1024, 0, 0⟩)]⟩
        "w1" 50).map (fun p => match GetWorker p "w1" with
          | .ok w => some w.status
          | .error _ => none)
      = .ok (some "offline") ∧
    (UpdateHeartbeat
        ⟨[("w1", ⟨"w1", "h", "127.0.0.1", 8080, "offline", 4, 1024, 0, 0⟩)],
         [("w1", ⟨"w1", "h", "127.0.0.1", 8080, "offline", 4, 1024, 0, 0⟩)]⟩
        "w1" 50).map (fun p => (p.store.lookup "w1").map (fun w => w.status))
      = .ok (some "online") ∧
    ("offline" : String) ≠ "online" := by
  refine ⟨rfl, rfl, rfl, by decide⟩

/-- Amended C9: for every worker id known to the pool (cached, or loadable
from storage), `UpdateHeartbeat` sets the cached worker's `lastHeartbeat`
to the current time — caching the worker first when it was only in
storage, and failing with not-found when the id is absent from both — and
the store call stamps the persisted row's heartbeat and sets the row's
status to `online`; the cached worker's status field, which cache-first
reads such as `GetWorker` serve, is left exactly as it was. -/
theorem updateHeartbeat_spec (p : PoolState) (workerId : String) (now : Nat) :
    (∀ w, p.cache.lookup workerId = some w →
       UpdateHeartbeat p workerId now =
         .ok { cache := assocPut workerId { w with lastHeartbeat := now } p.cache,
               store := assocAdjust workerId (storeHeartbeatRow now) p.store } ∧
       ({ w with lastHeartbeat := now } : Worker).status = w.status ∧
       (∀ s, p.store.lookup workerId = some s →
          (assocAdjust workerId (storeHeartbeatRow now) p.store).lookup workerId =
            some { s with lastHeartbeat := now, status := "online" })) ∧
    (∀ w, p.cache.lookup workerId = none → p.store.lookup workerId = some w →
       UpdateHeartbeat p workerId now =
         .ok { cache := assocPut workerId { w with lastHeartbeat := now } p.cache,
               store := assocAdjust workerId (storeHeartbeatRow now) p.store } ∧
       ({ w with lastHeartbeat := now } : Worker).status = w.status ∧
       (assocAdjust workerId (storeHeartbeatRow now) p.store).lookup workerId =
         some { w with lastHeartbeat := now, status := "online" }) ∧
    (p.cache.lookup workerId = none → p.store.lookup workerId = none →
       UpdateHeartbeat p workerId now = .error .workerNotFound) := by
  refine ⟨?_, ?_, ?_⟩
  · intro w hc
    refine ⟨?_, rfl, ?_⟩
    · unfold UpdateHeartbeat
      rw [hc]
    · intro s hs
      rw [lookup_assocAdjust_self, hs]
      rfl
  · intro w hc hs
    refine ⟨?_, rfl, ?_⟩
    · unfold UpdateHeartbeat
      rw [hc, hs]
    · rw [lookup_assocAdjust_self, hs]
      rfl
  · intro hc hs
    unfold UpdateHeartbeat
    rw [hc, hs]

/-- Witness for `updateHeartbeat_spec` on one-worker pools in all three
branches (cached hit, storage-only hit, absent id), including the persisted
row coming back `online` in the storage-hit branch. -/
theorem updateHeartbeat_spec_witness :
    (UpdateHeartbeat
        ⟨[("w1", ⟨"w1", "h", "127.0.0.1", 8080, "online", 4, 1024, 1, 0⟩)], []⟩
        "w1" 9).toBool = true ∧
    (UpdateHeartbeat
        ⟨[], [("w2", ⟨"w2", "h", "127.0.0.1", 8080, "offline", 4, 1024, 1, 0⟩)]⟩
        "w2" 9).toBool = true ∧
    (assocAdjust "w2" (storeHeartbeatRow 9)
        [("w2", ⟨"w2", "h", "127.0.0.1", 8080, "offline", 4, 1024, 1, 0⟩)]).lookup "w2" =
      some ⟨"w2", "h", "127.0.0.1", 8080, "online", 4, 1024, 9, 0⟩ ∧
    UpdateHeartbeat ⟨[], []⟩ "w3" 9 = .error .workerNotFound := by
  refine ⟨?_, ?_, ?_, ?_⟩
  · have h := (updateHeartbeat_spec
      ⟨[("w1", ⟨"w1", "h", "127.0.0.1", 8080, "online", 4, 1024, 1, 0⟩)], []⟩
      "w1" 9).1 ⟨"w1", "h", "127.0.0.1", 8080, "online", 4, 1024, 1, 0⟩ rfl
    rw [h.1]
    rfl
  · have h := (updateHeartbeat_spec
      ⟨[], [("w2", ⟨"w2", "h", "127.0.0.1", 8080, "offline", 4, 1024, 1, 0⟩)]⟩
      "w2" 9).2.1 ⟨"w2", "h", "127.0.0.1", 8080, "offline", 4, 1024, 1, 0⟩ rfl rfl
    rw [h.1]
    rfl
  · have h := (updateHeartbeat_spec
      ⟨[], [("w2", ⟨"w2", "h", "127.0.0.1", 8080, "offline", 4, 1024, 1, 0⟩)]⟩
      "w2" 9).2.1 ⟨"w2", "h", "127.0.0.1", 8080, "offline", 4, 1024, 1, 0⟩ rfl rfl
    exact h.2.2
  · exact (updateHeartbeat_spec ⟨[], []⟩ "w3" 9).2.2 rfl rfl

/- ======================================================================
   Checkpoint manager (src/internal/checkpoint, Manager in the file holding
   manager.go, concatenated into manager_test.go)
   ====================================================================== -/

/-- The value of a `types.Checkpoint` object (pkg/types, `Checkpoint`): the
opaque position token (Go `interface` value; modelled over an integer
carrier, as in the repository's tests and typical offsets), the persist
timestamp, and the metadata mapping. -/
structure CheckpointVal where
  position : Int
  timestamp : Nat
  metadata : List (String × String)
  deriving Repr, DecidableEq

/-- The Go heap restricted to `*types.Checkpoint` objects: addresses are
indices into the list.  A `*Checkpoint` pointer is a `Nat` address. -/
abbrev CkptHeap := List CheckpointVal

/-- State of the checkpoint `Manager` together with the heap its pointers
live in: the `enabled` flag, the owning job id, the `checkpoints` map
(stage name to checkpoint pointer — the Go map stores `*types.Checkpoint`),
and the storage contents (`Storage.Save` serializes the object, so the
store holds copies by value, keyed by (jobId, stage)). -/
structure CkptWorld where
  heap : CkptHeap
  enabled : Bool
  jobId : String
  table : List (String × Nat)
  storage : List ((String × String) × CheckpointVal)
  deriving Repr, DecidableEq

/-- Replace the binding of a (jobId, stage) key in the storage, or append. -/
def storagePut (k : String × String) (v : CheckpointVal) :
    List ((String × String) × CheckpointVal) → List ((String × String) × CheckpointVal)
  | [] => [(k, v)]
  | (k2, v2) :: rest =>
      if k2 = k then (k, v) :: rest else (k2, v2) :: storagePut k v rest

/-- `Manager.SaveCheckpoint` (checkpoint manager lines 485-502): when
disabled return silently; otherwise overwrite the caller's checkpoint
object's `Timestamp` in place with now, store the same pointer in the map
under the stage key, and write a serialized copy durably. -/
def SaveCheckpoint (w : CkptWorld) (stage : String) (addr : Nat) (now : Nat) : CkptWorld :=
  if !w.enabled then w
  else
    match w.heap.get? addr with
    | none => w
    | some c =>
        let c2 := { c with timestamp := now }
        { w with
          heap := w.heap.set addr c2,
          table := assocPut stage addr w.table,
          storage := storagePut (w.jobId, stage) c2 w.storage }

/-- `Manager.LoadCheckpoint` (checkpoint manager lines 505-520): when
disabled return null; otherwise return the pointer cached in the map, or
null when the stage is absent. -/
def LoadCheckpoint (w : CkptWorld) (stage : String) : Option Nat :=
  if !w.enabled then none
  else w.table.lookup stage

/-- `Manager.GetAllCheckpoints` (checkpoint manager lines 523-532): a fresh
map holding the same stage-to-pointer bindings. -/
def GetAllCheckpoints (w : CkptWorld) : List (String × Nat) :=
  w.table

lemma lookup_assocPut_eq_or {β : Type} (k k2 : String) (v : β) (l : List (String × β)) :
    (assocPut k v l).lookup k2 = some v ∨ (assocPut k v l).lookup k2 = l.lookup k2 := by
  by_cases h : k2 = k
  · subst h; exact Or.inl (lookup_assocPut_self k2 v l)
  · exact Or.inr (lookup_assocPut_ne k k2 v l h)

/-- A save never changes the position or metadata stored at any address. -/
lemma saveCheckpoint_preserves_posmeta (w : CkptWorld) (stage : String) (addr now a : Nat) :
    ((SaveCheckpoint w stage addr now).heap.get? a).map (fun c => (c.position, c.metadata)) =
      (w.heap.get? a).map (fun c => (c.position, c.metadata)) := by
  unfold SaveCheckpoint
  by_cases he : w.enabled
  · simp only [he, Bool.not_true, Bool.false_eq_true, if_false]
    cases hc : w.heap.get? addr with
    | none => rfl
    | some c =>
      dsimp only
      by_cases ha : a = addr
      · subst ha
        have hlt : a < w.heap.length := (List.get?_eq_some.mp hc).1
        have hcg : w.heap[a] = c := by
          have h2 := hc
          rw [List.get?_eq_getElem?, List.getElem?_eq_getElem hlt] at h2
          exact (Option.some.injEq _ _).mp h2
        rw [List.get?_eq_getElem?, List.getElem?_set_self']
        rw [List.getElem?_eq_getElem hlt, hcg, hc]
        rfl
      · rw [List.get?_eq_getElem?, List.get?_eq_getElem? w.heap a]
        rw [List.getElem?_set_ne (fun hx => ha hx.symm)]
  · simp [he]

/-- A save to a different stage never changes the table binding of a
stage. -/
lemma saveCheckpoint_preserves_table (w : CkptWorld) (stage stage2 : String)
    (addr now : Nat) (hne : stage2 ≠ stage) :
    (SaveCheckpoint w stage2 addr now).table.lookup stage = w.table.lookup stage := by
  unfold SaveCheckpoint
  by_cases he : w.enabled
  · simp only [he, Bool.not_true, Bool.false_eq_true, if_false]
    cases hc : w.heap.get? addr with
    | none => rfl
    | some c =>
      dsimp only
      exact lookup_assocPut_ne stage2 stage addr w.table (Ne.symm hne)
  · simp [he]

/-- Saves keep the enabled flag. -/
lemma saveCheckpoint_preserves_enabled (w : CkptWorld) (stage : String) (addr now : Nat) :
    (SaveCheckpoint w stage addr now).enabled = w.enabled := by
  unfold SaveCheckpoint
  by_cases he : w.enabled
  · simp only [he, Bool.not_true, Bool.false_eq_true, if_false]
    cases hc : w.heap.get? addr with
    | none => exact he
    | some c => rfl
  · simp [he]

/-- Fold a list of subsequent saves (stage, address, time) over a world. -/
def runSaves (w : CkptWorld) (saves : List (String × Nat × Nat)) : CkptWorld :=
  saves.foldl (fun acc e => SaveCheckpoint acc e.1 e.2.1 e.2.2) w

lemma runSaves_preserves_posmeta (saves : List (String × Nat × Nat)) :
    ∀ (w : CkptWorld) (a : Nat),
    ((runSaves w saves).heap.get? a).map (fun c => (c.position, c.metadata)) =
      (w.heap.get? a).map (fun c => (c.position, c.metadata)) := by
  induction saves with
  | nil => intro w a; rfl
  | cons e rest ih =>
    intro w a
    unfold runSaves at ih ⊢
    rw [List.foldl_cons]
    rw [ih (SaveCheckpoint w e.1 e.2.1 e.2.2) a]
    exact saveCheckpoint_preserves_posmeta w e.1 e.2.1 e.2.2 a

lemma runSaves_preserves_table (saves : List (String × Nat × Nat)) :
    ∀ (w : CkptWorld) (stage : String), (∀ e ∈ saves, e.1 ≠ stage) →
    (runSaves w saves).table.lookup stage = w.table.lookup stage := by
  induction saves with
  | nil => intro w stage _; rfl
  | cons e rest ih =>
    intro w stage hne
    unfold runSaves at ih ⊢
    rw [List.foldl_cons]
    rw [ih _ stage (fun f hf => hne f (List.mem_cons_of_mem _ hf))]
    exact saveCheckpoint_preserves_table w stage e.1 e.2.1 e.2.2
      (hne e (List.mem_cons_self _ _))

lemma runSaves_preserves_enabled (saves : List (String × Nat × Nat)) :
    ∀ (w : CkptWorld), (runSaves w saves).enabled = w.enabled := by
  induction saves with
  | nil => intro w; rfl
  | cons e rest ih =>
    intro w
    unfold runSaves at ih ⊢
    rw [List.foldl_cons]
    rw [ih (SaveCheckpoint w e.1 e.2.1 e.2.2)]
    exact saveCheckpoint_preserves_enabled w e.1 e.2.1 e.2.2

/-- C7: with checkpointing enabled, after `SaveCheckpoint(stage, c)` a
`LoadCheckpoint(stage)` returns a checkpoint whose position and metadata
equal `c`'s while the timestamp was normalized to the persist time, and
this remains true after any interleaving of further saves to other stage
names. -/
theorem saveCheckpoint_load_roundtrip (w : CkptWorld) (stage : String)
    (addr now : Nat) (c : CheckpointVal)
    (hen : w.enabled = true) (hc : w.heap.get? addr = some c)
    (saves : List (String × Nat × Nat)) (hother : ∀ e ∈ saves, e.1 ≠ stage) :
    ∃ a c2, LoadCheckpoint (runSaves (SaveCheckpoint w stage addr now) saves) stage = some a ∧
      (runSaves (SaveCheckpoint w stage addr now) saves).heap.get? a = some c2 ∧
      c2.position = c.position ∧ c2.metadata = c.metadata := by
  have hsave : SaveCheckpoint w stage addr now =
      { w with
        heap := w.heap.set addr { c with timestamp := now },
        table := assocPut stage addr w.table,
        storage := storagePut (w.jobId, stage) { c with timestamp := now } w.storage } := by
    unfold SaveCheckpoint
    rw [hen]
    simp only [Bool.not_true, Bool.false_eq_true, if_false]
    rw [hc]
  have hen2 : (runSaves (SaveCheckpoint w stage addr now) saves).enabled = true := by
    rw [runSaves_preserves_enabled, saveCheckpoint_preserves_enabled, hen]
  have htab : (runSaves (SaveCheckpoint w stage addr now) saves).table.lookup stage =
      some addr := by
    rw [runSaves_preserves_table saves _ stage hother, hsave]
    exact lookup_assocPut_self stage addr w.table
  have hload : LoadCheckpoint (runSaves (SaveCheckpoint w stage addr now) saves) stage =
      some addr := by
    unfold LoadCheckpoint
    rw [hen2]
    simpa using htab
  have hlt : addr < w.heap.length := (List.get?_eq_some.mp hc).1
  have hcg : w.heap[addr] = c := by
    have h2 := hc
    rw [List.get?_eq_getElem?, List.getElem?_eq_getElem hlt] at h2
    exact (Option.some.injEq _ _).mp h2
  have hafter : ((SaveCheckpoint w stage addr now).heap.get? addr).map
      (fun c => (c.position, c.metadata)) = some (c.position, c.metadata) := by
    rw [hsave]
    dsimp only
    rw [List.get?_eq_getElem?, List.getElem?_set_self']
    rw [List.getElem?_eq_getElem hlt, hcg]
    rfl
  have hpm : ((runSaves (SaveCheckpoint w stage addr now) saves).heap.get? addr).map
      (fun c => (c.position, c.metadata)) = some (c.position, c.metadata) := by
    rw [runSaves_preserves_posmeta saves _ addr]
    exact hafter
  cases hget : (runSaves (SaveCheckpoint w stage addr now) saves).heap.get? addr with
  | none => rw [hget] at hpm; exact absurd hpm (by simp)
  | some c2 =>
    rw [hget] at hpm
    simp only [Option.map_some'] at hpm
    have hp2 := (Option.some.injEq _ _).mp hpm
    exact ⟨addr, c2, hload, hget,
      congrArg Prod.fst hp2, congrArg Prod.snd hp2⟩

/-- Witness for `saveCheckpoint_load_roundtrip` on a one-object heap and an
interleaved save to another stage. -/
theorem saveCheckpoint_load_roundtrip_witness :
    ∃ a c2, LoadCheckpoint
        (runSaves (SaveCheckpoint ⟨[⟨100, 0, [("k", "v")]⟩, ⟨200, 0, []⟩], true, "job-1", [], []⟩
            "input" 0 7) [("output", 1, 9)]) "input" = some a ∧
      (runSaves (SaveCheckpoint ⟨[⟨100, 0, [("k", "v")]⟩, ⟨200, 0, []⟩], true, "job-1", [], []⟩
            "input" 0 7) [("output", 1, 9)]).heap.get? a = some c2 ∧
      c2.position = (100 : Int) ∧ c2.metadata = [("k", "v")] := by
  exact saveCheckpoint_load_roundtrip
    ⟨[⟨100, 0, [("k", "v")]⟩, ⟨200, 0, []⟩], true, "job-1", [], []⟩
    "input" 0 7 ⟨100, 0, [("k", "v")]⟩ rfl rfl [("output", 1, 9)]
    (by intro e he; simp at he; rw [he]; decide)

lemma mem_of_lookup {β : Type} (l : List (String × β)) (k : String) (v : β)
    (h : l.lookup k = some v) : (k, v) ∈ l := by
  induction l with
  | nil => simp [List.lookup] at h
  | cons p rest ih =>
    obtain ⟨k2, v2⟩ := p
    by_cases hk : k = k2
    · subst hk
      simp [List.lookup] at h
      rw [h]
      exact List.mem_cons_self _ _
    · have hbe : (k == k2) = false := beq_eq_false_iff_ne.mpr hk
      simp only [List.lookup, hbe] at h
      exact List.mem_cons_of_mem _ (ih h)

/-- C10: with checkpointing enabled, `SaveCheckpoint(stage, c)` mutates the
caller's checkpoint object in place — it overwrites that object's timestamp
with the persist time, leaving position and metadata unchanged, and touches
no other heap object — and stores the caller's pointer itself (not a copy)
in the in-memory map, so `LoadCheckpoint` and `GetAllCheckpoints` return an
alias of the caller's object: any later mutation through the caller's
pointer is visible through a subsequent load. -/
theorem saveCheckpoint_aliases_caller (w : CkptWorld) (stage : String)
    (addr now : Nat) (c : CheckpointVal)
    (hen : w.enabled = true) (hc : w.heap.get? addr = some c) :
    (SaveCheckpoint w stage addr now).heap.get? addr =
        some { c with timestamp := now } ∧
    LoadCheckpoint (SaveCheckpoint w stage addr now) stage = some addr ∧
    (stage, addr) ∈ GetAllCheckpoints (SaveCheckpoint w stage addr now) ∧
    (∀ a, a ≠ addr →
       (SaveCheckpoint w stage addr now).heap.get? a = w.heap.get? a) ∧
    (∀ v : CheckpointVal,
       LoadCheckpoint
           { SaveCheckpoint w stage addr now with
             heap := (SaveCheckpoint w stage addr now).heap.set addr v } stage =
         some addr ∧
       ({ SaveCheckpoint w stage addr now with
          heap := (SaveCheckpoint w stage addr now).heap.set addr v }).heap.get? addr =
         some v) := by
  have hlt : addr < w.heap.length := (List.get?_eq_some.mp hc).1
  have hcg : w.heap[addr] = c := by
    have h2 := hc
    rw [List.get?_eq_getElem?, List.getElem?_eq_getElem hlt] at h2
    exact (Option.some.injEq _ _).mp h2
  have hsave : SaveCheckpoint w stage addr now =
      { w with
        heap := w.heap.set addr { c with timestamp := now },
        table := assocPut stage addr w.table,
        storage := storagePut (w.jobId, stage) { c with timestamp := now } w.storage } := by
    unfold SaveCheckpoint
    rw [hen]
    simp only [Bool.not_true, Bool.false_eq_true, if_false]
    rw [hc]
  have htab : (SaveCheckpoint w stage addr now).table.lookup stage = some addr := by
    rw [hsave]
    exact lookup_assocPut_self stage addr w.table
  have hload : LoadCheckpoint (SaveCheckpoint w stage addr now) stage = some addr := by
    unfold LoadCheckpoint
    rw [hsave]
    dsimp only
    rw [hen]
    simp only [Bool.not_true, Bool.false_eq_true, if_false]
    rw [hsave] at htab
    exact htab
  refine ⟨?_, hload, ?_, ?_, ?_⟩
  · rw [hsave]
    dsimp only
    rw [List.get?_eq_getElem?, List.getElem?_set_self']
    rw [List.getElem?_eq_getElem hlt, hcg]
    rfl
  · unfold GetAllCheckpoints
    exact mem_of_lookup _ _ _ htab
  · intro a ha
    rw [hsave]
    dsimp only
    rw [List.get?_eq_getElem?, List.get?_eq_getElem? w.heap a]
    exact List.getElem?_set_ne (fun hx => ha hx.symm)
  · intro v
    constructor
    · unfold LoadCheckpoint
      dsimp only
      have hen1 : (SaveCheckpoint w stage addr now).enabled = true := by
        rw [saveCheckpoint_preserves_enabled]; exact hen
      rw [hen1]
      simp only [Bool.not_true, Bool.false_eq_true, if_false]
      exact htab
    · dsimp only
      have hlen : addr < (SaveCheckpoint w stage addr now).heap.length := by
        rw [hsave]
        simpa using hlt
      rw [List.get?_eq_getElem?]
      rw [List.getElem?_set_self']
      rw [List.getElem?_eq_getElem hlen]
      rfl

/-- Witness for `saveCheckpoint_aliases_caller` on a two-object heap. -/
theorem saveCheckpoint_aliases_caller_witness :
    (SaveCheckpoint ⟨[⟨100, 0, [("k", "v")]⟩, ⟨200, 0, []⟩], true, "job-1", [], []⟩
        "input" 0 7).heap.get? 0 = some ⟨100, 7, [("k", "v")]⟩ ∧
    LoadCheckpoint (SaveCheckpoint ⟨[⟨100, 0, [("k", "v")]⟩, ⟨200, 0, []⟩], true, "job-1", [], []⟩
        "input" 0 7) "input" = some 0 := by
  have h := saveCheckpoint_aliases_caller
    ⟨[⟨100, 0, [("k", "v")]⟩, ⟨200, 0, []⟩], true, "job-1", [], []⟩
    "input" 0 7 ⟨100, 0, [("k", "v")]⟩ rfl rfl
  exact ⟨h.1, h.2.1⟩

/- ======================================================================
   Concurrent pipeline runtime: backpressure probe
   (src/internal/pipeline/concurrent.go)
   ====================================================================== -/

/-- The dynamic type of the channel value handed to `isBackpressure` as an
empty-interface argument (src/internal/pipeline/concurrent.go lines
344-359): a bidirectional `chan *types.DataBatch` whose buffered length can
be read, a send-only `chan<- *types.DataBatch` whose length the type switch
refuses to read, or any other value. -/
inductive ChanRef
  | bidir (length : Nat)
  | sendOnly
  | other
  deriving Repr, DecidableEq

/-- `ConcurrentPipeline.isBackpressure` (src/internal/pipeline/concurrent.go
lines 344-359): for a bidirectional channel compare length/capacity with the
threshold; for a send-only channel the switch comments that the length
cannot be read and returns false; for any other dynamic type return false.
Go `float64` arithmetic is modelled by exact rationals (exact for the
capacities at hand; the send-only and default branches never divide). -/
def isBackpressure (ch : ChanRef) (capacity : Nat) (threshold : ℚ) : Bool :=
  match ch with
  | .bidir length => decide ((length : ℚ) / (capacity : ℚ) ≥ threshold)
  | .sendOnly => false
  | .other => false

/-- The backpressure sleep the input reader performs before reading a batch
(src/internal/pipeline/concurrent.go lines 200-206), in milliseconds.  The
`outputChan` parameter of `runInputReader` is declared send-only
(`chan<- *types.DataBatch`), so the interface value passed to
`isBackpressure` always carries the send-only dynamic type, whatever the
buffer occupancy is. -/
def inputReaderSleepMs (_occupancy capacity : Nat) (threshold : ℚ) : Nat :=
  if isBackpressure ChanRef.sendOnly capacity threshold then 100 else 0

/-- The backpressure sleep a processor performs before processing a batch
(src/internal/pipeline/concurrent.go lines 271-276), in milliseconds; its
`outputChan` is likewise declared send-only. -/
def processorSleepMs (_occupancy capacity : Nat) (threshold : ℚ) : Nat :=
  if isBackpressure ChanRef.sendOnly capacity threshold then 50 else 0

/-- Counterexample to C1 as stated: with the default capacity 10 and
threshold 0.8, an outbound buffer holding 8 batches has occupancy ratio
8/10 ≥ 0.8, yet the predicate the producing stages evaluate returns false
(their channels are send-only, which the type switch maps to false), so
neither the input reader (claimed ~100 ms) nor a processor (claimed ~50 ms)
sleeps. -/
theorem backpressure_never_fires_cex :
    ((8 : ℚ) / 10 ≥ 8 / 10) ∧
    isBackpressure ChanRef.sendOnly 10 (8 / 10) = false ∧
    inputReaderSleepMs 8 10 (8 / 10) = 0 ∧
    processorSleepMs 8 10 (8 / 10) = 0 := by
  refine ⟨le_refl _, rfl, rfl, rfl⟩

/-- Amended C1: `isBackpressure` returns true exactly when
occupancy/capacity ≥ threshold only for a bidirectional channel value; for
the send-only channels that the producing stages actually pass (and for any
other dynamic type) it returns false, so the input reader's ~100 ms and the
processors' ~50 ms backpressure sleeps never trigger. -/
theorem isBackpressure_spec (len cap occ : Nat) (thr : ℚ) (hcap : 0 < cap) :
    (isBackpressure (ChanRef.bidir len) cap thr = true ↔ (len : ℚ) / (cap : ℚ) ≥ thr) ∧
    isBackpressure ChanRef.sendOnly cap thr = false ∧
    isBackpressure ChanRef.other cap thr = false ∧
    inputReaderSleepMs occ cap thr = 0 ∧
    processorSleepMs occ cap thr = 0 := by
  refine ⟨?_, rfl, rfl, rfl, rfl⟩
  unfold isBackpressure
  exact decide_eq_true_iff

/-- Witness for `isBackpressure_spec` at the default configuration
(capacity 10, threshold 0.8) with a full buffer. -/
theorem isBackpressure_spec_witness :
    (isBackpressure (ChanRef.bidir 10) 10 (8 / 10) = true ↔
        (10 : ℚ) / (10 : ℚ) ≥ 8 / 10) ∧
    isBackpressure ChanRef.sendOnly 10 (8 / 10) = false ∧
    isBackpressure ChanRef.other 10 (8 / 10) = false ∧
    inputReaderSleepMs 10 10 (8 / 10) = 0 ∧
    processorSleepMs 10 10 (8 / 10) = 0 :=
  isBackpressure_spec 10 10 10 (8 / 10) (by decide)

/- ======================================================================
   Config compiler (src/internal/config/converter.go)
   ====================================================================== -/

/-- A `{type, config}` stage entry of a declarative pipeline spec
(src/internal/config/converter.go, `InputConfig`/`ProcessorConfig`/
`OutputConfig`); the untyped config mapping is modelled as string pairs. -/
structure StageSpec where
  typeName : String
  config : List (String × String)
  deriving Repr, DecidableEq

/-- A parsed pipeline configuration (src/internal/config/converter.go,
`PipelineConfig` with its `SettingsConfig`). -/
structure PipelineConfig where
  input : StageSpec
  processors : List StageSpec
  output : StageSpec
  batchSize : Int
  mode : String
  deriving Repr, DecidableEq

/-- `Converter.ValidateConfig` (src/internal/config/converter.go lines
72-85): reject when `input.Type` is empty, reject when `output.Type` is
empty, and accept otherwise. -/
def ValidateConfig (config : PipelineConfig) : Except String Unit :=
  if config.input.typeName = "" then .error "input type is required"
  else if config.output.typeName = "" then .error "output type is required"
  else .ok ()

/-- A registered plugin as the converter sees it: `Initialize(config)`
returns an error message or succeeds.  (The plugin's own `Validate` exists
on the Go interface but `BuildPipeline` never calls it.) -/
structure PluginImpl where
  name : String
  initResult : List (String × String) → Option String
  validateResult : List (String × String) → Option String
  deriving Inhabited

/-- The three name-to-plugin tables of `plugin.Registry`
(src/internal/plugin, used by the converter via `GetInput`, `GetProcessor`,
`GetOutput`). -/
structure Registry where
  inputs : List (String × PluginImpl)
  procs : List (String × PluginImpl)
  outputs : List (String × PluginImpl)

/-- The processor loop of `Converter.BuildPipeline`
(src/internal/config/converter.go lines 100-113): look each processor up
and initialize it in order; the second component records the `Initialize`
calls actually performed, in order. -/
def buildProcessors (reg : Registry) : List StageSpec → Except String Unit × List String
  | [] => (.ok (), [])
  | spec :: rest =>
      match reg.procs.lookup spec.typeName with
      | none => (.error ("failed to get processor plugin " ++ spec.typeName), [])
      | some pl =>
          match pl.initResult spec.config with
          | some e => (.error ("failed to initialize processor: " ++ e), [])
          | none =>
              let (r, tr) := buildProcessors reg rest
              (r, spec.typeName :: tr)

/-- `Converter.BuildPipeline` (src/internal/config/converter.go lines
87-135): look up and initialize the input, then each processor in order,
then the output.  The second component is the ordered trace of successful
`Initialize` calls — plugins instantiated before any failure. -/
def BuildPipeline (reg : Registry) (config : PipelineConfig) :
    Except String Unit × List String :=
  match reg.inputs.lookup config.input.typeName with
  | none => (.error ("failed to get input plugin " ++ config.input.typeName), [])
  | some ip =>
      match ip.initResult config.input.config with
      | some e => (.error ("failed to initialize input plugin: " ++ e), [])
      | none =>
          let (r, tr) := buildProcessors reg config.processors
          match r with
          | .error e => (.error e, config.input.typeName :: tr)
          | .ok () =>
              match reg.outputs.lookup config.output.typeName with
              | none => (.error ("failed to get output plugin " ++ config.output.typeName),
                         config.input.typeName :: tr)
              | some op =>
                  match op.initResult config.output.config with
                  | some e => (.error ("failed to initialize output plugin: " ++ e),
                               config.input.typeName :: tr)
                  | none => (.ok (), config.input.typeName :: tr ++ [config.output.typeName])

/-- A demonstration registry: a `csv` input that initializes fine, and a
`csv` output whose own `Validate` rejects every config; no processors are
registered. -/
def demoRegistry : Registry :=
  ⟨[("csv", ⟨"csv", fun _ => none, fun _ => none⟩)],
   [],
   [("csv", ⟨"csv", fun _ => none, fun _ => some "rejected"⟩)]⟩

/-- A spec whose only processor entry has an empty type. -/
def demoBadProcConfig : PipelineConfig :=
  ⟨⟨"csv", []⟩, [⟨"", []⟩], ⟨"csv", []⟩, 1000, "async"⟩

/-- Counterexample to C2 as stated: `ValidateConfig` accepts a spec whose
`processors[0].type` is empty (it checks only the input and output types and
never consults the registry or any plugin's `validate`), and the
unregistered processor type is only rejected later by `BuildPipeline` —
after the input plugin has already been initialized. -/
theorem validateConfig_ignores_processors_cex :
    ValidateConfig demoBadProcConfig = .ok () ∧
    demoBadProcConfig.processors = [⟨"", []⟩] ∧
    (BuildPipeline demoRegistry demoBadProcConfig).1 =
      .error "failed to get processor plugin " ∧
    (BuildPipeline demoRegistry demoBadProcConfig).2 = ["csv"] := by
  refine ⟨rfl, rfl, rfl, rfl⟩

/-- Amended C2: `ValidateConfig` (and hence `ParseYAML`, which validates
what it parses) rejects a spec exactly when `input.type` or `output.type`
is empty; processor types — empty, or unregistered — and the plugins' own
config validation are not checked at validation time.  An unregistered
processor type fails only at build time, and by then the input plugin has
already been initialized. -/
theorem validateConfig_spec (config : PipelineConfig) (reg : Registry)
    (spec : StageSpec) (rest : List StageSpec) :
    (ValidateConfig config = .ok () ↔
       (config.input.typeName ≠ "" ∧ config.output.typeName ≠ "")) ∧
    (config.processors = spec :: rest →
     reg.procs.lookup spec.typeName = none →
     (∀ ip, reg.inputs.lookup config.input.typeName = some ip →
        ip.initResult config.input.config = none →
        (BuildPipeline reg config).1 =
            .error ("failed to get processor plugin " ++ spec.typeName) ∧
        (BuildPipeline reg config).2 = [config.input.typeName])) := by
  constructor
  · unfold ValidateConfig
    by_cases h1 : config.input.typeName = ""
    · simp [h1]
    · by_cases h2 : config.output.typeName = ""
      · simp [h1, h2]
      · simp [h1, h2]
  · intro hps hlk ip hip hinit
    have hbp : buildProcessors reg (spec :: rest) =
        (.error ("failed to get processor plugin " ++ spec.typeName), []) := by
      unfold buildProcessors
      rw [hlk]
    unfold BuildPipeline
    rw [hip]
    dsimp only
    rw [hinit]
    dsimp only
    rw [hps, hbp]
    exact ⟨rfl, rfl⟩

/-- Witness for `validateConfig_spec` on the demonstration registry and the
empty-processor-type spec. -/
theorem validateConfig_spec_witness :
    (ValidateConfig demoBadProcConfig = .ok () ↔
       (demoBadProcConfig.input.typeName ≠ "" ∧
        demoBadProcConfig.output.typeName ≠ "")) ∧
    ((BuildPipeline demoRegistry demoBadProcConfig).1 =
        .error "failed to get processor plugin " ∧
     (BuildPipeline demoRegistry demoBadProcConfig).2 = ["csv"]) := by
  have h := validateConfig_spec demoBadProcConfig demoRegistry ⟨"", []⟩ []
  refine ⟨h.1, ?_⟩
  have h2 := h.2 rfl rfl ⟨"csv", fun _ => none, fun _ => none⟩ rfl rfl
  simpa using h2

/- ======================================================================
   Concurrent pipeline runtime: dataflow and completion
   (src/internal/pipeline/concurrent.go)
   ====================================================================== -/

/-- A row of data (pkg/types, `Record`); the dynamically typed values are
abstracted to an integer carrier, which the runtime never inspects. -/
structure PRecord where
  values : List Int
  deriving Repr, DecidableEq

/-- A batch of records (pkg/types, `DataBatch`); the schema, batch metadata
and checkpoint token are not read by the dataflow loops modelled here. -/
structure DataBatch where
  records : List PRecord
  deriving Repr, DecidableEq

/-- `DataBatch.Size` (pkg/types): the number of records. -/
def DataBatch.size (b : DataBatch) : Nat := b.records.length

/-- `DataBatch.IsEmpty` (pkg/types): whether the batch has no records. -/
def DataBatch.isEmpty (b : DataBatch) : Bool := b.records.length = 0

/-- One result of `input.ReadBatch` as `runInputReader` distinguishes them
(src/internal/pipeline/concurrent.go lines 208-221): end of stream
(`io.EOF`), a read error, or a batch. -/
inductive ReadResult
  | eof
  | readErr (msg : String)
  | batch (b : DataBatch)
  deriving Repr, DecidableEq

/-- The read loop of `runInputReader` (src/internal/pipeline/concurrent.go
lines 194-242) without cancellation: stop cleanly on EOF (also when the
prescribed reads run out) or on a nil/empty batch; publish a read error and
stop; otherwise emit the batch downstream and continue.  Returns the
batches sent to the outbound channel and the error published to the error
channel, if any. -/
def runInputReaderLoop : List ReadResult → List DataBatch × Option String
  | [] => ([], none)
  | .eof :: _ => ([], none)
  | .readErr m :: _ => ([], some ("failed to read batch: " ++ m))
  | .batch b :: rest =>
      if b.isEmpty then ([], none)
      else
        let (bs, e) := runInputReaderLoop rest
        (b :: bs, e)

/-- A processor plugin as the runtime calls it: `Process(batch)` returns a
transformed batch or an error. -/
structure ProcessorPlugin where
  process : DataBatch → Except String DataBatch

/-- The loop of `runProcessor` (src/internal/pipeline/concurrent.go lines
260-302) without cancellation: for each inbound batch apply `Process`; on
error publish it and stop; when the result is empty skip the send
(filtered); otherwise send it downstream. -/
def runProcessorLoop (p : ProcessorPlugin) : List DataBatch → List DataBatch × Option String
  | [] => ([], none)
  | b :: rest =>
      match p.process b with
      | .error e => ([], some ("processor failed: " ++ e))
      | .ok b2 =>
          if b2.isEmpty then runProcessorLoop p rest
          else
            let (bs, e) := runProcessorLoop p rest
            (b2 :: bs, e)

/-- The chain of processor stages: each stage consumes the full outbound
stream of its predecessor (channels are FIFO and each batch is consumed by
exactly one downstream stage); when a stage fails, the batches it emitted
before failing still flow on, and the earliest stage's error is the one the
runtime observes.  This sequential composition is exact for executions in
which at most one stage fails. -/
def runChain (procs : List ProcessorPlugin) (bs : List DataBatch) :
    List DataBatch × Option String :=
  match procs with
  | [] => (bs, none)
  | p :: ps =>
      let (out, e1) := runProcessorLoop p bs
      let (fin, e2) := runChain ps out
      (fin, match e1 with | some m => some m | none => e2)

/-- An output plugin as the runtime calls it: `WriteBatch` may fail per
batch, and `Flush` may fail once at the end. -/
structure OutputPlugin where
  writeResult : DataBatch → Option String
  flushResult : Option String

/-- The loop of `runOutputWriter` (src/internal/pipeline/concurrent.go
lines 312-341) without cancellation: write each inbound batch; on error
publish it and stop; after each successful write add the batch size to the
records-written counter.  Returns the counter value and the published
error, if any. -/
def runOutputWriterLoop (out : OutputPlugin) : List DataBatch → Nat × Option String
  | [] => (0, none)
  | b :: rest =>
      match out.writeResult b with
      | some e => (0, some ("failed to write batch: " ++ e))
      | none =>
          let (n, e) := runOutputWriterLoop out rest
          (b.size + n, e)

/-- Errors `Execute` returns (src/internal/pipeline/concurrent.go lines
162-183 and the `fmt.Errorf` wrappers). -/
inductive PipelineError
  | stageFailure (msg : String)
  | cancelledErr (msg : String)
  | flushFailed (msg : String)
  deriving Repr, DecidableEq

/-- The observable outcome of a pipeline execution. -/
structure ExecOutcome where
  delivered : List DataBatch
  recordsWritten : Nat
  flushCalls : Nat
  result : Option PipelineError
  deriving Repr, DecidableEq

/-- `ConcurrentPipeline.Execute` (src/internal/pipeline/concurrent.go lines
109-184) restricted to executions that are not cancelled: run the stages
over the streams they exchange; when any stage published an error the
completion select sees the error channel and `Execute` returns the first
observed error without flushing; otherwise all stages completed, `Flush`
runs exactly once and its failure, if any, is returned. -/
def ExecuteRun (input : List ReadResult) (procs : List ProcessorPlugin)
    (out : OutputPlugin) : ExecOutcome :=
  let (bs, eIn) := runInputReaderLoop input
  let (fin, eChain) := runChain procs bs
  let (written, eOut) := runOutputWriterLoop out fin
  let firstErr : Option String :=
    match eIn with
    | some m => some m
    | none => match eChain with
              | some m => some m
              | none => eOut
  match firstErr with
  | some m =>
      { delivered := fin, recordsWritten := written, flushCalls := 0,
        result := some (.stageFailure m) }
  | none =>
      match out.flushResult with
      | some m =>
          { delivered := fin, recordsWritten := written, flushCalls := 1,
            result := some (.flushFailed ("failed to flush output: " ++ m)) }
      | none =>
          { delivered := fin, recordsWritten := written, flushCalls := 1,
            result := none }

/-- Applying the processor chain to one batch, as C5 speaks of it:
`ok none` when some processor filters the batch to empty (all its
predecessors succeeding), `ok (some b)` when the batch survives the whole
chain, `error` when some processor fails on it. -/
def chainApply : List ProcessorPlugin → DataBatch → Except String (Option DataBatch)
  | [], b => .ok (some b)
  | p :: ps, b =>
      match p.process b with
      | .error e => .error e
      | .ok b2 => if b2.isEmpty then .ok none else chainApply ps b2

lemma runProcessorLoop_all_filtered (p : ProcessorPlugin) (bs : List DataBatch)
    (h : ∀ b ∈ bs, ∃ b2, p.process b = .ok b2 ∧ b2.isEmpty = true) :
    runProcessorLoop p bs = ([], none) := by
  induction bs with
  | nil => rfl
  | cons b rest ih =>
    obtain ⟨b2, hp, he⟩ := h b (List.mem_cons_self _ _)
    have ih2 := ih (fun x hx => h x (List.mem_cons_of_mem _ hx))
    simp [runProcessorLoop, hp, he, ih2]

lemma runChain_all_filtered (procs : List ProcessorPlugin) :
    ∀ (bs : List DataBatch), (∀ b ∈ bs, chainApply procs b = .ok none) →
    runChain procs bs = ([], none) := by
  induction procs with
  | nil =>
    intro bs h
    cases bs with
    | nil => rfl
    | cons b rest =>
      have := h b (List.mem_cons_self _ _)
      rw [chainApply] at this
      exact absurd this (by simp)
  | cons p ps ih =>
    intro bs h
    rw [runChain]
    have hsplit : runProcessorLoop p bs =
        (((bs.filterMap (fun b => match p.process b with
            | .ok b2 => if b2.isEmpty then none else some b2
            | .error _ => none))), none) := by
      induction bs with
      | nil => rfl
      | cons b rest ihb =>
        have hc := h b (List.mem_cons_self _ _)
        rw [chainApply] at hc
        have ihb2 := ihb (fun x hx => h x (List.mem_cons_of_mem _ hx))
        cases hp : p.process b with
        | error e => rw [hp] at hc; exact absurd hc (by simp)
        | ok b2 =>
          rw [hp] at hc
          dsimp only at hc
          by_cases he : b2.isEmpty = true
          · simp [runProcessorLoop, hp, List.filterMap_cons, he, ihb2]
          · simp [runProcessorLoop, hp, List.filterMap_cons, he, ihb2]
    rw [hsplit]
    dsimp only
    have hmem : ∀ b2 ∈ bs.filterMap (fun b => match p.process b with
        | .ok b3 => if b3.isEmpty then none else some b3
        | .error _ => none), chainApply ps b2 = .ok none := by
      intro b2 hb2
      rw [List.mem_filterMap] at hb2
      obtain ⟨b, hb, hfb⟩ := hb2
      have hc := h b hb
      rw [chainApply] at hc
      cases hp : p.process b with
      | error e => rw [hp] at hfb; exact absurd hfb (by simp)
      | ok b3 =>
        rw [hp] at hfb hc
        dsimp only at hfb hc
        by_cases he : b3.isEmpty = true
        · rw [if_pos he] at hfb
          exact absurd hfb (by simp)
        · rw [if_neg he] at hfb
          have hb23 : b3 = b2 := (Option.some.injEq _ _).mp hfb
          rw [if_neg he] at hc
          rw [← hb23]
          exact hc
    rw [ih _ hmem]

/-- C5: when every batch the input produces is filtered to empty by the
processor chain (and the input reaches its end without a read error), zero
batches are delivered to the output stage, the records-written counter is
zero, `Flush` is still called exactly once, and when the flush succeeds
`Execute` returns success. -/
theorem execute_all_filtered (input : List ReadResult) (procs : List ProcessorPlugin)
    (out : OutputPlugin)
    (hIn : (runInputReaderLoop input).2 = none)
    (hFiltered : ∀ b ∈ (runInputReaderLoop input).1, chainApply procs b = .ok none)
    (hFlush : out.flushResult = none) :
    (ExecuteRun input procs out).delivered = [] ∧
    (ExecuteRun input procs out).recordsWritten = 0 ∧
    (ExecuteRun input procs out).flushCalls = 1 ∧
    (ExecuteRun input procs out).result = none := by
  unfold ExecuteRun
  cases hpair : runInputReaderLoop input with
  | mk bs eIn =>
    rw [hpair] at hIn hFiltered
    have heIn : eIn = none := hIn
    subst heIn
    have hchain := runChain_all_filtered procs bs (by simpa using hFiltered)
    dsimp only
    rw [hchain]
    simp [runOutputWriterLoop, hFlush]

/-- A processor that filters every record out: `Process` returns an empty
batch for every input (the spec's scenario B). -/
def filterAllProcessor : ProcessorPlugin :=
  ⟨fun _ => .ok ⟨[]⟩⟩

/-- Witness for `execute_all_filtered`: ten batches of one record each, one
filter-everything processor, a well-behaved output. -/
theorem execute_all_filtered_witness :
    (ExecuteRun (List.replicate 10 (.batch ⟨[⟨[1]⟩]⟩) ++ [.eof])
        [filterAllProcessor] ⟨fun _ => none, none⟩).delivered = [] ∧
    (ExecuteRun (List.replicate 10 (.batch ⟨[⟨[1]⟩]⟩) ++ [.eof])
        [filterAllProcessor] ⟨fun _ => none, none⟩).recordsWritten = 0 ∧
    (ExecuteRun (List.replicate 10 (.batch ⟨[⟨[1]⟩]⟩) ++ [.eof])
        [filterAllProcessor] ⟨fun _ => none, none⟩).flushCalls = 1 ∧
    (ExecuteRun (List.replicate 10 (.batch ⟨[⟨[1]⟩]⟩) ++ [.eof])
        [filterAllProcessor] ⟨fun _ => none, none⟩).result = none := by
  exact execute_all_filtered _ _ _ (by rfl)
    (by
      intro b hb
      rfl)
    rfl

/-- The three cases of the completion select in `Execute`
(src/internal/pipeline/concurrent.go lines 162-173): all stage goroutines
finished (`done` closed), a stage error is pending on the error channel, or
the caller's cancellation scope fired (`ctx.Done()`). -/
inductive SelectBranch
  | doneBranch
  | errBranch
  | ctxDoneBranch
  deriving Repr, DecidableEq

/-- Which select cases are ready to proceed, as functions of the execution
situation: `done` is ready exactly when every stage goroutine has
terminated, the error case exactly when some stage published an error, and
`ctx.Done()` exactly when the execution was cancelled.  Go's select picks
uniformly among the ready cases, so any ready branch may be the one
taken. -/
def branchReady (cancelled errorPending stagesFinished : Bool) : SelectBranch → Bool
  | .doneBranch => stagesFinished
  | .errBranch => errorPending
  | .ctxDoneBranch => cancelled

/-- The observable end of one `Execute` call: the returned error (none for
success), whether `Flush` was invoked, and whether the deferred `Close` of
the input and of the output ran. -/
structure ExecuteEnd where
  result : Option PipelineError
  flushInvoked : Bool
  inputClosed : Bool
  outputClosed : Bool
  deriving Repr, DecidableEq

/-- What `Execute` does from the completion select onward
(src/internal/pipeline/concurrent.go lines 162-184): `Close` on the input
and the output always run (they are deferred at lines 117 and 123);
`Flush` runs only on the completion branch; the error branch returns the
pending stage error, the cancellation branch returns the cancellation
error, and the completion branch returns the flush failure or success. -/
def executeFinish (errMsg : String) (flushRes : Option String) :
    SelectBranch → ExecuteEnd
  | .doneBranch =>
      match flushRes with
      | some m => ⟨some (.flushFailed ("failed to flush output: " ++ m)), true, true, true⟩
      | none => ⟨none, true, true, true⟩
  | .errBranch => ⟨some (.stageFailure ("pipeline error: " ++ errMsg)), false, true, true⟩
  | .ctxDoneBranch => ⟨some (.cancelledErr "pipeline cancelled"), false, true, true⟩

/-- Counterexample to C6 as stated: in a cancelled execution whose stage
goroutines have all terminated by the time the select commits (cancellation
made them return, `wg.Wait` finished and `done` closed), the completion
branch is ready alongside the cancellation branch; Go's select may take it,
and then `Execute` calls `Flush` and returns success — not an error naming
cancellation, and `Flush` is invoked despite the cancellation. -/
theorem execute_cancelled_cex :
    branchReady true false true .doneBranch = true ∧
    branchReady true false true .ctxDoneBranch = true ∧
    (executeFinish "" none .doneBranch).result = none ∧
    (executeFinish "" none .doneBranch).flushInvoked = true := by
  exact ⟨rfl, rfl, rfl, rfl⟩

/-- Amended C6: in a cancelled execution, provided no stage error is
pending and the stage goroutines have not all terminated when the select
commits, the only ready branch is the cancellation one, so `Execute`
returns the cancellation error, does not invoke `Flush`, and (as in every
branch) the deferred `Close` of the input and of the output still run. -/
theorem execute_cancelled_spec (errMsg : String) (flushRes : Option String)
    (br : SelectBranch)
    (hready : branchReady true false false br = true) :
    br = .ctxDoneBranch ∧
    (executeFinish errMsg flushRes br).result =
      some (.cancelledErr "pipeline cancelled") ∧
    (executeFinish errMsg flushRes br).flushInvoked = false ∧
    (executeFinish errMsg flushRes br).inputClosed = true ∧
    (executeFinish errMsg flushRes br).outputClosed = true ∧
    (∀ br2 : SelectBranch, (executeFinish errMsg flushRes br2).inputClosed = true ∧
       (executeFinish errMsg flushRes br2).outputClosed = true) := by
  have hbr : br = .ctxDoneBranch := by
    cases br with
    | doneBranch => exact absurd hready (by simp [branchReady])
    | errBranch => exact absurd hready (by simp [branchReady])
    | ctxDoneBranch => rfl
  subst hbr
  refine ⟨rfl, rfl, rfl, rfl, rfl, ?_⟩
  intro br2
  cases br2 with
  | doneBranch =>
      cases flushRes with
      | none => exact ⟨rfl, rfl⟩
      | some m => exact ⟨rfl, rfl⟩
  | errBranch => exact ⟨rfl, rfl⟩
  | ctxDoneBranch => exact ⟨rfl, rfl⟩

/-- Witness for `execute_cancelled_spec`: a cancelled run with running
stages and an empty error channel takes the cancellation branch. -/
theorem execute_cancelled_spec_witness :
    SelectBranch.ctxDoneBranch = SelectBranch.ctxDoneBranch ∧
    (executeFinish "boom" none .ctxDoneBranch).result =
      some (.cancelledErr "pipeline cancelled") ∧
    (executeFinish "boom" none .ctxDoneBranch).flushInvoked = false ∧
    (executeFinish "boom" none .ctxDoneBranch).inputClosed = true ∧
    (executeFinish "boom" none .ctxDoneBranch).outputClosed = true ∧
    (∀ br2 : SelectBranch, (executeFinish "boom" none br2).inputClosed = true ∧
       (executeFinish "boom" none br2).outputClosed = true) :=
  execute_cancelled_spec "boom" none .ctxDoneBranch rfl

end Fustgo
